import Mathlib

/-!
# basicWebServer: the weather aggregation core of `main.go`

A shallow embedding of `weatherUnderground.tempAndHumidity`,
`openWeatherMap.tempAndHumidity` and `multiWeatherProvider.tempAndHumidity`.

* Go `int` is a 64-bit two's complement integer: `Int` with `wrap64`.
* Go `float64` arithmetic is a parameter (`Float64Ops`); `binary64` is a model of
  IEEE 754 round-to-nearest-even double precision used to evaluate concrete runs.
* The goroutines and the two buffered channels of `multiWeatherProvider.tempAndHumidity`
  are a transition system: one scheduler action is one atomic step of the aggregator
  or of one worker, and a schedule is a list of actions.
* `fmt.Println` / `fmt.Printf` output is not modelled.
-/

namespace WeatherServer

/-! ## Go values: strings, errors, panics, results -/

/-- A Go string is a sequence of bytes. -/
abbrev GoString := List UInt8

/-- The bytes (UTF-8) of a string literal. -/
def goString (s : String) : GoString := s.toList.flatMap String.utf8EncodeChar

/-- Go `error` values. `syntaxError` and `rangeError` are the `*strconv.NumError`
values produced by `strconv.Atoi`; `other` is any other error (network, JSON). -/
inductive GoError where
  | syntaxError (fn : String) (num : GoString)
  | rangeError (fn : String) (num : GoString)
  | other (msg : String)
  deriving DecidableEq, Repr

/-- Run-time panics raised by the modelled code. -/
inductive Panic where
  | divideByZero
  | sliceBounds (hi len : Nat)
  | logFailed (err : GoError)
  deriving DecidableEq, Repr

/-- What a call of a `tempAndHumidity` method does: it returns
`(temp, humidity, err)` or it panics. `err = none` is Go's `nil`. -/
inductive Outcome (F : Type) where
  | returned (temp : F) (humidity : Int) (err : Option GoError)
  | panicked (p : Panic)
  deriving DecidableEq, Repr

/-! ## Go `int` -/

/-- Reduction of an integer to the 64-bit two's complement range. -/
def wrap64 (x : Int) : Int := (x + 2 ^ 63) % 2 ^ 64 - 2 ^ 63

/-- Go `a + b` on `int`. -/
def iadd (a b : Int) : Int := wrap64 (a + b)

/-- Go `a / b` on `int`: truncated division, a run-time panic when `b = 0`. -/
def idiv (a b : Int) : Except Panic Int :=
  if b = 0 then .error .divideByZero else .ok (wrap64 (Int.tdiv a b))

/-- Go `s[:hi]`: a run-time panic when `hi` exceeds `len(s)`. -/
def sliceTo (s : GoString) (hi : Nat) : Except Panic GoString :=
  if hi ≤ s.length then .ok (s.take hi) else .error (.sliceBounds hi s.length)

/-! ## `float64` -/

/-- The `float64` operations and constants used by `main.go`. -/
structure Float64Ops (F : Type) where
  /-- The constant `0` / `0.0`. -/
  zero : F
  add : F → F → F
  sub : F → F → F
  mul : F → F → F
  div : F → F → F
  /-- The conversion `float64(n)` of an `int`. -/
  ofInt : Int → F
  /-- The constant `1.8`. -/
  c1_8 : F
  /-- The constant `459.67`. -/
  c459_67 : F
  /-- The constant `273.15`. -/
  c273_15 : F

/-- An IEEE 754 binary64 datum: NaN, an infinity, or the finite value
`(-1)^neg * m * 2^e`. Canonical finite data have `m < 2^53`, `-1074 ≤ e ≤ 971`,
`e = -1074` when `m < 2^52`, and zero is `fin neg 0 0`. -/
inductive F64 where
  | nan
  | inf (neg : Bool)
  | fin (neg : Bool) (m : Nat) (e : Int)
  deriving DecidableEq, Repr

namespace F64

/-- Binary search for `⌊log₂ n⌋` (for `0 < n < 2^4096`), `k` bits of the answer at a time. -/
def log2Aux (n : Nat) : Nat → Nat → Nat
  | 0, lo => lo
  | k + 1, lo => if n >>> (lo + 2 ^ k) = 0 then log2Aux n k lo else log2Aux n k (lo + 2 ^ k)

/-- Number of binary digits of `n`. -/
def bitLen (n : Nat) : Nat := if n = 0 then 0 else log2Aux n 12 0 + 1

/-- The integer nearest to `M / 2^d` (`1 ≤ d`), ties to even. -/
def shiftRound (M d : Nat) : Nat :=
  let q := M / 2 ^ d
  let r := M % 2 ^ d
  let half := 2 ^ (d - 1)
  if half < r ∨ (r = half ∧ q % 2 = 1) then q + 1 else q

/-- Round the exact value `(-1)^neg * M * 2^e` to binary64, nearest, ties to even. -/
def round (neg : Bool) (M : Nat) (e : Int) : F64 :=
  if M = 0 then fin neg 0 0
  else
    let e1 : Int := max (e + (bitLen M : Int) - 53) (-1074)
    let m := if e1 ≤ e then M * 2 ^ (e - e1).toNat else shiftRound M (e1 - e).toNat
    let m2 := if m = 2 ^ 53 then 2 ^ 52 else m
    let e2 := if m = 2 ^ 53 then e1 + 1 else e1
    if m2 = 0 then fin neg 0 0 else if 971 < e2 then inf neg else fin neg m2 e2

/-- The signed integer `(-1)^neg * m`. -/
def toInt (neg : Bool) (m : Nat) : Int := if neg then -(m : Int) else (m : Int)

/-- Binary64 addition. -/
def add : F64 → F64 → F64
  | nan, _ => nan
  | _, nan => nan
  | inf a, inf b => if a = b then inf a else nan
  | inf a, fin _ _ _ => inf a
  | fin _ _ _, inf b => inf b
  | fin s1 m1 e1, fin s2 m2 e2 =>
    let e := min e1 e2
    let v : Int := toInt s1 m1 * 2 ^ (e1 - e).toNat + toInt s2 m2 * 2 ^ (e2 - e).toNat
    if v = 0 then fin (s1 && s2) 0 0 else round (decide (v < 0)) v.natAbs e

/-- Binary64 negation. -/
def neg : F64 → F64
  | nan => nan
  | inf a => inf (!a)
  | fin s m e => fin (!s) m e

/-- Binary64 subtraction. -/
def sub (x y : F64) : F64 := add x (neg y)

/-- Binary64 multiplication. -/
def mul : F64 → F64 → F64
  | nan, _ => nan
  | _, nan => nan
  | inf a, inf b => inf (xor a b)
  | inf a, fin s m _ => if m = 0 then nan else inf (xor a s)
  | fin s m _, inf b => if m = 0 then nan else inf (xor s b)
  | fin s1 m1 e1, fin s2 m2 e2 => round (xor s1 s2) (m1 * m2) (e1 + e2)

/-- Binary64 division: the quotient is computed with at least 56 significant bits and
a sticky bit, then rounded. -/
def div : F64 → F64 → F64
  | nan, _ => nan
  | _, nan => nan
  | inf _, inf _ => nan
  | inf a, fin s _ _ => inf (xor a s)
  | fin s _ _, inf b => fin (xor s b) 0 0
  | fin s1 m1 e1, fin s2 m2 e2 =>
    if m2 = 0 then (if m1 = 0 then nan else inf (xor s1 s2))
    else
      let k := 56 + bitLen m2
      let q := m1 * 2 ^ k / m2
      let r := m1 * 2 ^ k % m2
      round (xor s1 s2) (2 * q + (if r = 0 then 0 else 1)) (e1 - e2 - (k : Int) - 1)

/-- The conversion `float64(n)`. -/
def ofInt (n : Int) : F64 := round (decide (n < 0)) n.natAbs 0

/-- The binary64 value of the decimal constant `n / d`. -/
def ofDecimal (n d : Int) : F64 := div (ofInt n) (ofInt d)

end F64

/-- Go's `float64` arithmetic: every operation rounds to nearest, ties to even, and each
operation is rounded on its own (no fused multiply-add, as on amd64). -/
def binary64 : Float64Ops F64 where
  zero := F64.fin false 0 0
  add := F64.add
  sub := F64.sub
  mul := F64.mul
  div := F64.div
  ofInt := F64.ofInt
  c1_8 := F64.ofDecimal 18 10
  c459_67 := F64.ofDecimal 45967 100
  c273_15 := F64.ofDecimal 27315 100

/-! ## `strconv.Atoi` -/

/-- The value of an ASCII decimal digit. -/
def digitVal (b : UInt8) : Option Nat :=
  if 48 ≤ b.toNat ∧ b.toNat ≤ 57 then some (b.toNat - 48) else none

/-- The loop `n = n*10 + int(ch)` over the digits, failing on a non-digit. -/
def parseDigits : GoString → Nat → Option Nat
  | [], n => some n
  | b :: rest, n =>
    match digitVal b with
    | none => none
    | some d => parseDigits rest (n * 10 + d)

/-- Go's standard library `strconv.Atoi` (base 10, 64-bit `int`): an optional sign
followed by at least one decimal digit and nothing else; a syntax error otherwise,
a range error when the value does not fit. -/
def Atoi (s : GoString) : Except GoError Int :=
  match s with
  | [] => .error (.syntaxError "Atoi" s)
  | c :: rest =>
    let digits := if c = 45 ∨ c = 43 then rest else s
    if digits = [] then .error (.syntaxError "Atoi" s)
    else
      match parseDigits digits 0 with
      | none => .error (.syntaxError "Atoi" s)
      | some n =>
        let v : Int := if c = 45 then -(n : Int) else (n : Int)
        if v < -2 ^ 63 ∨ 2 ^ 63 ≤ v then .error (.rangeError "Atoi" s) else .ok v

/-! ## The provider adapters -/

/-- What the outside world answers to one `http.Get` followed by `log` and
`json.NewDecoder(body).Decode(&d)`, for a decoded value of type `D`. -/
inductive Response (D : Type) where
  | getFailed (err : GoError)
  | logFailed (err : GoError)
  | decodeFailed (err : GoError)
  | decoded (d : D)
  deriving DecidableEq, Repr

/-- The constant `OpenApiKey`. -/
def OpenApiKey : String := "8c7374560763424676ccbf5a721b56e0"

/-- The struct `weatherData`. -/
structure weatherData (F : Type) where
  Name : String
  Kelvin : F
  Humidity : Int
  deriving DecidableEq, Repr

/-- The anonymous struct decoded by `weatherUnderground.tempAndHumidity`
(its `current_observation` member). -/
structure Observation (F : Type) where
  Celsius : F
  Humidity : GoString
  deriving DecidableEq, Repr

/-- The struct `weatherUnderground`. -/
structure weatherUnderground where
  apiKey : String
  deriving DecidableEq, Repr

/-- The interface `weatherProvider`: the method `tempAndHumidity(city)`. -/
abbrev weatherProvider (F : Type) := String → Outcome F

/-- The URL requested by `openWeatherMap.tempAndHumidity`. -/
def openWeatherMap.url (city : String) : String :=
  "http://api.openweathermap.org/data/2.5/weather?APPID=" ++ OpenApiKey ++ "&q=" ++ city

/-- The URL requested by `weatherUnderground.tempAndHumidity`. -/
def weatherUnderground.url (w : weatherUnderground) (city : String) : String :=
  "http://api.wunderground.com/api/" ++ w.apiKey ++ "/conditions/q/" ++ city ++ ".json"

/-- The method `openWeatherMap.tempAndHumidity`; `net` answers the request for a URL. -/
def openWeatherMap.tempAndHumidity {F : Type} (ops : Float64Ops F)
    (net : String → Response (weatherData F)) (city : String) : Outcome F :=
  match net (openWeatherMap.url city) with
  | .getFailed err => .returned ops.zero 0 (some err)
  | .logFailed err => .panicked (.logFailed err)
  | .decodeFailed err => .returned ops.zero 0 (some err)
  | .decoded d => .returned d.Kelvin d.Humidity none

/-- The method `weatherUnderground.tempAndHumidity`; `net` answers the request for a URL. -/
def weatherUnderground.tempAndHumidity {F : Type} (ops : Float64Ops F)
    (net : String → Response (Observation F)) (w : weatherUnderground) (city : String) :
    Outcome F :=
  match net (w.url city) with
  | .getFailed err => .returned ops.zero 0 (some err)
  | .logFailed err => .panicked (.logFailed err)
  | .decodeFailed err => .returned ops.zero 0 (some err)
  | .decoded d =>
    let temp := ops.add d.Celsius ops.c273_15
    match sliceTo d.Humidity 2 with
    | .error p => .panicked p
    | .ok two =>
      match Atoi two with
      | .error err => .returned temp 0 (some err)
      | .ok humidity => .returned temp humidity none

/-! ## The aggregator `multiWeatherProvider.tempAndHumidity` -/

/-- The type `multiWeatherProvider`, a slice of providers. -/
abbrev multiWeatherProvider (F : Type) := List (weatherProvider F)

/-- The struct `weatherTuple`. -/
structure weatherTuple (F : Type) where
  temp : F
  humidity : Int
  deriving DecidableEq, Repr

namespace multiWeatherProvider

/-- Control state of the goroutine launched for one provider (lines 184-190). -/
inductive Worker (F : Type) where
  /-- The `go` statement for this provider has not been executed yet. -/
  | unspawned
  /-- About to run `k, h, err := p.tempAndHumidity(city)`. -/
  | calling
  /-- About to run `errors <- err`. -/
  | sendErr (k : F) (h : Int) (err : GoError)
  /-- About to run `data <- weatherTuple{temp:k, humidity:h}`. -/
  | sendData (k : F) (h : Int)
  /-- The goroutine has ended. -/
  | done
  deriving DecidableEq, Repr

/-- Control state of the goroutine that runs `tempAndHumidity` itself. -/
inductive Main (F : Type) where
  /-- In the loop of line 175, about to handle provider number `j`. -/
  | spawning (j : Nat)
  /-- In the loop of line 193 with loop counter `i`. -/
  | receiving (i : Nat) (totalTemp : F) (totalHumidity : Int)
  /-- The call has ended. -/
  | finished (out : Outcome F)
  deriving DecidableEq, Repr

/-- The two channels. -/
inductive Chan where
  | data
  | errors
  deriving DecidableEq, Repr

/-- One scheduling decision: the aggregator moves (`pick` is the case its `select`
takes when it is at the `select`), or worker number `i` moves. -/
inductive Action where
  | main (pick : Chan)
  | worker (i : Nat)
  deriving DecidableEq, Repr

/-- State of one call. `data` and `errors` are the buffered channels' contents, oldest
message first. The last three fields are history variables: the number of messages
ever sent on each channel and the readings received from `data` so far. -/
structure State (F : Type) where
  main : Main F
  workers : List (Worker F)
  data : List (weatherTuple F)
  errors : List GoError
  crashed : Option Panic
  dataSent : Nat
  errorsSent : Nat
  received : List (weatherTuple F)
  deriving DecidableEq, Repr

/-- State at entry of the call. -/
def init {F : Type} (mw : multiWeatherProvider F) : State F where
  main := .spawning 0
  workers := List.replicate mw.length .unspawned
  data := []
  errors := []
  crashed := none
  dataSent := 0
  errorsSent := 0
  received := []

/-- Lines 203-206: the averages and the conversion to Fahrenheit. -/
def finish {F : Type} (ops : Float64Ops F) (n : Nat) (totalTemp : F) (totalHumidity : Int) :
    Outcome F :=
  let avgKelvin := ops.div totalTemp (ops.ofInt n)
  match idiv totalHumidity n with
  | .error p => .panicked p
  | .ok q => .returned (ops.sub (ops.mul avgKelvin ops.c1_8) ops.c459_67) q none

/-- One step of the aggregator goroutine. `none`: the step cannot be taken (the chosen
channel is empty, or the call has ended). -/
def stepMain {F : Type} (ops : Float64Ops F) (mw : multiWeatherProvider F) (s : State F)
    (pick : Chan) : Option (State F) :=
  match s.main with
  | .spawning j =>
    if j < mw.length then
      some { s with workers := s.workers.set j .calling, main := .spawning (j + 1) }
    else some { s with main := .receiving 0 ops.zero 0 }
  | .receiving i totalTemp totalHumidity =>
    if i < mw.length then
      match pick with
      | .data =>
        match s.data with
        | [] => none
        | stuff :: rest =>
          some { s with
            data := rest
            received := s.received ++ [stuff]
            main := .receiving (i + 1) (ops.add totalTemp stuff.temp)
              (iadd totalHumidity stuff.humidity) }
      | .errors =>
        match s.errors with
        | [] => none
        | err :: rest =>
          some { s with errors := rest, main := .finished (.returned ops.zero 0 (some err)) }
    else some { s with main := .finished (finish ops mw.length totalTemp totalHumidity) }
  | .finished _ => none

/-- One step of worker `i`. `none`: the step cannot be taken (the worker is not running,
or its send would block on a full channel). A panic in the provider ends the program. -/
def stepWorker {F : Type} (mw : multiWeatherProvider F) (city : String) (s : State F)
    (i : Nat) : Option (State F) :=
  match s.workers[i]? with
  | some .calling =>
    match mw[i]? with
    | none => none
    | some p =>
      match p city with
      | .panicked pn => some { s with crashed := some pn }
      | .returned k h none => some { s with workers := s.workers.set i (.sendData k h) }
      | .returned k h (some err) =>
        some { s with workers := s.workers.set i (.sendErr k h err) }
  | some (.sendErr k h err) =>
    if s.errors.length < mw.length then
      some { s with
        errors := s.errors ++ [err]
        errorsSent := s.errorsSent + 1
        workers := s.workers.set i (.sendData k h) }
    else none
  | some (.sendData k h) =>
    if s.data.length < mw.length then
      some { s with
        data := s.data ++ [⟨k, h⟩]
        dataSent := s.dataSent + 1
        workers := s.workers.set i .done }
    else none
  | _ => none

/-- One step of the whole system under a scheduling decision. -/
def step {F : Type} (ops : Float64Ops F) (mw : multiWeatherProvider F) (city : String)
    (s : State F) (a : Action) : Option (State F) :=
  if s.crashed.isSome then none
  else
    match a with
    | .main pick => stepMain ops mw s pick
    | .worker i => stepWorker mw city s i

/-- Run a schedule; `none` when some action of it cannot be taken. -/
def run {F : Type} (ops : Float64Ops F) (mw : multiWeatherProvider F) (city : String) :
    State F → List Action → Option (State F)
  | s, [] => some s
  | s, a :: rest =>
    match step ops mw city s a with
    | none => none
    | some s1 => run ops mw city s1 rest

/-- The result of the call `mw.tempAndHumidity(city)` under a schedule, when the call has
ended by the end of the schedule. -/
def tempAndHumidity {F : Type} (ops : Float64Ops F) (mw : multiWeatherProvider F)
    (city : String) (sched : List Action) : Option (Outcome F) :=
  match run ops mw city (init mw) sched with
  | some s =>
    match s.main with
    | .finished out => some out
    | _ => none
  | none => none

/-! ### The step relation and the invariants of a call -/

/-- The steps of `step`, one constructor per program point. -/
inductive Step {F : Type} (ops : Float64Ops F) (mw : multiWeatherProvider F) (city : String)
    (s : State F) : State F → Prop where
  | spawn (j : Nat) (hm : s.main = .spawning j) (hj : j < mw.length) :
    Step ops mw city s { s with workers := s.workers.set j .calling, main := .spawning (j + 1) }
  | startReceiving (j : Nat) (hm : s.main = .spawning j) (hj : ¬ j < mw.length) :
    Step ops mw city s { s with main := .receiving 0 ops.zero 0 }
  | receiveData (i : Nat) (tt : F) (th : Int) (stuff : weatherTuple F)
    (rest : List (weatherTuple F)) (hm : s.main = .receiving i tt th) (hi : i < mw.length)
    (hd : s.data = stuff :: rest) :
    Step ops mw city s { s with
      data := rest
      received := s.received ++ [stuff]
      main := .receiving (i + 1) (ops.add tt stuff.temp) (iadd th stuff.humidity) }
  | receiveError (i : Nat) (tt : F) (th : Int) (err : GoError) (rest : List GoError)
    (hm : s.main = .receiving i tt th) (hi : i < mw.length) (he : s.errors = err :: rest) :
    Step ops mw city s { s with
      errors := rest, main := .finished (.returned ops.zero 0 (some err)) }
  | finish (i : Nat) (tt : F) (th : Int) (hm : s.main = .receiving i tt th)
    (hi : ¬ i < mw.length) :
    Step ops mw city s { s with main := .finished (finish ops mw.length tt th) }
  | callPanics (i : Nat) (p : weatherProvider F) (pn : Panic)
    (hw : s.workers[i]? = some .calling) (hp : mw[i]? = some p)
    (hr : p city = .panicked pn) :
    Step ops mw city s { s with crashed := some pn }
  | callSucceeds (i : Nat) (p : weatherProvider F) (k : F) (h : Int)
    (hw : s.workers[i]? = some .calling) (hp : mw[i]? = some p)
    (hr : p city = .returned k h none) :
    Step ops mw city s { s with workers := s.workers.set i (.sendData k h) }
  | callFails (i : Nat) (p : weatherProvider F) (k : F) (h : Int) (err : GoError)
    (hw : s.workers[i]? = some .calling) (hp : mw[i]? = some p)
    (hr : p city = .returned k h (some err)) :
    Step ops mw city s { s with workers := s.workers.set i (.sendErr k h err) }
  | sendError (i : Nat) (k : F) (h : Int) (err : GoError)
    (hw : s.workers[i]? = some (.sendErr k h err)) (hfree : s.errors.length < mw.length) :
    Step ops mw city s { s with
      errors := s.errors ++ [err]
      errorsSent := s.errorsSent + 1
      workers := s.workers.set i (.sendData k h) }
  | sendReading (i : Nat) (k : F) (h : Int)
    (hw : s.workers[i]? = some (.sendData k h)) (hfree : s.data.length < mw.length) :
    Step ops mw city s { s with
      data := s.data ++ [⟨k, h⟩]
      dataSent := s.dataSent + 1
      workers := s.workers.set i .done }

/-- The worker has ended, hence has sent on `data`. -/
def Worker.isDone {F : Type} : Worker F → Bool
  | .done => true
  | _ => false

/-- The worker is past the statement `errors <- err`. -/
def Worker.pastErr {F : Type} : Worker F → Bool
  | .sendData _ _ => true
  | .done => true
  | _ => false

/-- Invariant of every call, whatever the providers do. -/
structure Inv {F : Type} (mw : multiWeatherProvider F) (s : State F) : Prop where
  len : s.workers.length = mw.length
  sentData : s.dataSent = s.workers.countP Worker.isDone
  sentErr : s.errorsSent ≤ s.workers.countP Worker.pastErr
  recv : s.received.length + s.data.length = s.dataSent
  errs : s.errors.length ≤ s.errorsSent
  spawn : ∀ j, s.main = .spawning j →
    j ≤ mw.length ∧ ∀ (i : Nat) (w : Worker F), s.workers[i]? = some w → j ≤ i → w = .unspawned

/-- The `float64` sum `0.0 + k₁ + k₂ + ...` of the temperatures, added in list order. -/
def sumTemp {F : Type} (ops : Float64Ops F) (rs : List (weatherTuple F)) : F :=
  rs.foldl (fun t r => ops.add t r.temp) ops.zero

/-- The `int` sum `0 + h₁ + h₂ + ...` of the humidities, added in list order. -/
def sumHumidity {F : Type} (rs : List (weatherTuple F)) : Int :=
  rs.foldl (fun t r => iadd t r.humidity) 0

/-- The outcome of a provider that succeeds with reading `r`. -/
def succeeds {F : Type} (r : weatherTuple F) : Outcome F := .returned r.temp r.humidity none

/-- The reading worker `w` has still to send on `data`, when its provider succeeds
with `r`. -/
def pending {F : Type} : Worker F → weatherTuple F → List (weatherTuple F)
  | .unspawned, r => [r]
  | .calling, r => [r]
  | .sendErr k h _, _ => [⟨k, h⟩]
  | .sendData k h, _ => [⟨k, h⟩]
  | .done, _ => []

/-- The readings all workers have still to send on `data`. -/
def pendingAll {F : Type} : List (Worker F) → List (weatherTuple F) → List (weatherTuple F)
  | w :: ws, r :: rs => pending w r ++ pendingAll ws rs
  | _, _ => []

/-- Invariant of a call in which every provider succeeds, with readings `rs`. -/
structure InvOk {F : Type} (ops : Float64Ops F) (mw : multiWeatherProvider F)
    (rs : List (weatherTuple F)) (s : State F) : Prop where
  alive : s.crashed = none
  noErr : ∀ (i : Nat) (k : F) (h : Int) (e : GoError),
    s.workers[i]? ≠ some (Worker.sendErr k h e)
  noErrors : s.errors = []
  spawned : ∀ j, s.main = .spawning j →
    s.received = [] ∧ ∀ i : Nat, i < j → s.workers[i]? ≠ some Worker.unspawned
  perm : (s.received ++ s.data ++ pendingAll s.workers rs).Perm rs
  recv : ∀ i tt th, s.main = .receiving i tt th →
    i = s.received.length ∧ tt = sumTemp ops s.received ∧ th = sumHumidity s.received ∧
      ∀ j : Nat, s.workers[j]? ≠ some Worker.unspawned
  fin : ∀ out, s.main = .finished out →
    out = finish ops mw.length (sumTemp ops s.received) (sumHumidity s.received) ∧
      s.received.length = mw.length

/-- Number of steps a worker has still to take. -/
def Worker.weight {F : Type} : Worker F → Nat
  | .unspawned => 3
  | .calling => 3
  | .sendErr _ _ _ => 2
  | .sendData _ _ => 1
  | .done => 0

/-- A bound on the number of steps the call can still take. -/
def weight {F : Type} (n : Nat) (s : State F) : Nat :=
  (match s.main with
    | .spawning j => (n - j) + n + 2
    | .receiving i _ _ => (n - i) + 1
    | .finished _ => 0) + (s.workers.map Worker.weight).sum

end multiWeatherProvider

/-! ## Concrete inputs -/

open multiWeatherProvider

/-- A network on which every request fails. -/
def netDown (D : Type) : String → Response D :=
  fun _ => .getFailed (.other "connection refused")

/-- OpenWeatherMap answering `temp = k`, `humidity = h`. -/
def netOpenWeather (k : F64) (h : Int) : String → Response (weatherData F64) :=
  fun _ => .decoded ⟨"London", k, h⟩

/-- Weather Underground answering `temp_c = c`, `relative_humidity = hum`. -/
def netUnderground (c : F64) (hum : String) : String → Response (Observation F64) :=
  fun _ => .decoded ⟨c, goString hum⟩

/-- The value `weatherUnderground{apiKey: "ff7be5e9c4c5864b"}` of `main`. -/
def underground : weatherUnderground := ⟨"ff7be5e9c4c5864b"⟩

/-- The provider list `mw` of `main` on given networks. -/
def mainProviders (netO : String → Response (weatherData F64))
    (netU : String → Response (Observation F64)) : multiWeatherProvider F64 :=
  [openWeatherMap.tempAndHumidity binary64 netO,
   weatherUnderground.tempAndHumidity binary64 netU underground]

/-- An OpenWeatherMap provider that succeeds with `(k, h)`. -/
def openWeather (k : F64) (h : Int) : weatherProvider F64 :=
  openWeatherMap.tempAndHumidity binary64 (netOpenWeather k h)

/-- The providers of `main` when the OpenWeatherMap request fails and Weather Underground
answers 20 degrees Celsius and `"87%"`. -/
def oneFails : multiWeatherProvider F64 :=
  mainProviders (netDown _) (netUnderground (F64.ofInt 20) "87%")

/-- Both workers are launched; worker 0 calls its provider and sends its error. -/
def failingWorkerStarts : List Action :=
  [.main .data, .main .data, .main .data, .worker 0, .worker 0]

/-- Worker 0 runs to its end. -/
def failingWorkerEnds : List Action := failingWorkerStarts ++ [.worker 0]

/-- Both workers run to their end, then the `select` takes a message from `data` twice
and the aggregator returns. -/
def dataTwice : List Action :=
  failingWorkerEnds ++ [.worker 1, .worker 1, .main .data, .main .data, .main .data]

/-- Worker 0 sends its error and the `select` takes it from `errors`. -/
def errorTaken : List Action := failingWorkerStarts ++ [.main .errors]

/-- The state after `failingWorkerStarts` and the call of the provider of worker 1. -/
def bothAboutToSend : State F64 where
  main := .receiving 0 (F64.fin false 0 0) 0
  workers := [.sendData (F64.fin false 0 0) 0,
    .sendData (F64.fin false 5157149338920550 (-44)) 87]
  data := []
  errors := [.other "connection refused"]
  crashed := none
  dataSent := 0
  errorsSent := 1
  received := []

/-- All workers of an `n`-provider list are launched, run to their end in the given order
(two steps each, as for providers that succeed), then the aggregator receives `n` readings
and returns. -/
def completionOrder (order : List Nat) : List Action :=
  List.replicate (order.length + 1) (.main .data)
    ++ order.flatMap (fun i => [.worker i, .worker i])
    ++ List.replicate (order.length + 1) (.main .data)

/-- Three providers that succeed with 270.0, 270.7 and 271.1 kelvin. -/
def threeReadings : List (weatherTuple F64) :=
  [⟨F64.ofInt 270, 40⟩, ⟨F64.ofDecimal 2707 10, 50⟩, ⟨F64.ofDecimal 2711 10, 60⟩]

/-- The providers of `threeReadings`. -/
def three : multiWeatherProvider F64 := threeReadings.map (fun r => openWeather r.temp r.humidity)

/-- Two providers that succeed with 280 and 290 kelvin. -/
def twoReadings : List (weatherTuple F64) := [⟨F64.ofInt 280, 40⟩, ⟨F64.ofInt 290, 61⟩]

/-- The providers of `twoReadings`. -/
def two : multiWeatherProvider F64 := twoReadings.map (fun r => openWeather r.temp r.humidity)

/-- The binary64 value of 250.05. -/
def t250_05 : F64 := F64.ofDecimal 25005 100

/-- Two providers that both succeed with 280 kelvin and humidity 50. -/
def sameTwo : multiWeatherProvider F64 := List.replicate 2 (openWeather (F64.ofInt 280) 50)

/-- Three providers that all succeed with 250.05 kelvin and humidity 50. -/
def sameThree : multiWeatherProvider F64 := List.replicate 3 (openWeather t250_05 50)

/-- Two providers that both succeed with 280 kelvin and humidity `2^62`. -/
def overflowTwo : multiWeatherProvider F64 :=
  List.replicate 2 (openWeather (F64.ofInt 280) (2 ^ 62))

/-- Two readings whose humidities add up to `2^63`, one more than the largest `int`. -/
def wrapReadings : List (weatherTuple F64) :=
  [⟨F64.ofInt 280, 2 ^ 63 - 1⟩, ⟨F64.ofInt 290, 1⟩]

/-- The providers of `wrapReadings`. -/
def wrapTwo : multiWeatherProvider F64 :=
  wrapReadings.map (fun r => openWeather r.temp r.humidity)

/-! ## The `binary64` model on known values -/

/-- The constants of `main.go` as binary64 data: 1.8 is `0x1.ccccccccccccdp+0`, 459.67 is
`0x1.cbab851eb851fp+8`, 273.15 is `0x1.1126666666666p+8`. -/
theorem binary64_constants :
    binary64.c1_8 = F64.fin false 8106479329266893 (-52) ∧
    binary64.c459_67 = F64.fin false 8086600159036703 (-44) ∧
    binary64.c273_15 = F64.fin false 4805305618032230 (-44) := by
  decide

/-- Rounding in the model on textbook cases: `0.1 + 0.2` is 0.30000000000000004,
`(0.1 + 0.1 + 0.1) / 3` is 0.10000000000000002, `2^53 + 1` is `2^53` (tie to even),
`1 / 0` is `+Inf` and `0 / 0` is NaN. -/
theorem binary64_examples :
    F64.add (F64.ofDecimal 1 10) (F64.ofDecimal 2 10) = F64.fin false 5404319552844596 (-54) ∧
    F64.div (F64.add (F64.add (F64.ofDecimal 1 10) (F64.ofDecimal 1 10)) (F64.ofDecimal 1 10))
        (F64.ofInt 3) = F64.fin false 7205759403792795 (-56) ∧
    F64.add (F64.ofInt (2 ^ 53)) (F64.ofInt 1) = F64.ofInt (2 ^ 53) ∧
    F64.div (F64.ofInt 1) (F64.ofInt 0) = F64.inf false ∧
    F64.div (F64.ofInt 0) (F64.ofInt 0) = F64.nan := by
  decide

/-- Addition in the binary64 model is commutative. -/
theorem binary64_add_comm (x y : F64) : binary64.add x y = binary64.add y x := by
  show F64.add x y = F64.add y x
  cases x with
  | nan => cases y <;> rfl
  | inf a =>
    cases y with
    | nan => rfl
    | inf b =>
      simp only [F64.add]
      by_cases h : a = b
      · subst h
        rfl
      · rw [if_neg h, if_neg (Ne.symm h)]
    | fin s m e => rfl
  | fin s1 m1 e1 =>
    cases y with
    | nan => rfl
    | inf b => rfl
    | fin s2 m2 e2 =>
      simp only [F64.add]
      rw [min_comm e2 e1, Int.add_comm (F64.toInt s2 m2 * _), Bool.and_comm s2 s1]

/-- In the binary64 model `0.0 + k = k` for the temperatures 280 and 290 of `twoReadings`. -/
theorem twoReadings_zero_add :
    twoReadings.map weatherTuple.temp = [F64.ofInt 280, F64.ofInt 290] ∧
    binary64.add binary64.zero (F64.ofInt 280) = F64.ofInt 280 ∧
    binary64.add binary64.zero (F64.ofInt 290) = F64.ofInt 290 := by
  decide

/-! ## Properties of `weatherUnderground.tempAndHumidity` -/

theorem sliceTo_append (two rest : GoString) (h2 : two.length = 2) :
    sliceTo (two ++ rest) 2 = .ok two := by
  unfold sliceTo
  have hlen : 2 ≤ (two ++ rest).length := by simp [h2]
  rw [if_pos hlen, ← h2, List.take_left]

theorem sliceTo_ok (s : GoString) (h2 : 2 ≤ s.length) : sliceTo s 2 = .ok (s.take 2) := by
  unfold sliceTo
  rw [if_pos h2]

/-- C4: when the decoded `relative_humidity` is two bytes `two` that `strconv.Atoi` parses
as `h`, followed by any bytes `rest`, the method returns `(C + 273.15, h, nil)`: the bytes
after the second play no role. -/
theorem C4_humidity_first_two_bytes {F : Type} (ops : Float64Ops F)
    (net : String → Response (Observation F)) (w : weatherUnderground) (city : String)
    (C : F) (two rest : GoString) (h : Int)
    (hnet : net (w.url city) = .decoded ⟨C, two ++ rest⟩)
    (hlen : two.length = 2) (hparse : Atoi two = .ok h) :
    weatherUnderground.tempAndHumidity ops net w city
      = .returned (ops.add C ops.c273_15) h none := by
  unfold weatherUnderground.tempAndHumidity
  rw [hnet]
  simp only [sliceTo_append two rest hlen, hparse]

/-- C4, at `"87%"` (humidity 87) and at `"100%"` (humidity 10, no error). -/
theorem C4_humidity_first_two_bytes_witness :
    weatherUnderground.tempAndHumidity binary64 (netUnderground (F64.ofInt 20) "87%")
        underground "London"
      = .returned (F64.add (F64.ofInt 20) (F64.ofDecimal 27315 100)) 87 none ∧
    weatherUnderground.tempAndHumidity binary64 (netUnderground (F64.ofInt 20) "100%")
        underground "London"
      = .returned (F64.add (F64.ofInt 20) (F64.ofDecimal 27315 100)) 10 none :=
  ⟨C4_humidity_first_two_bytes binary64 _ underground "London" (F64.ofInt 20)
      (goString "87") (goString "%") 87 (by decide) (by decide) rfl,
   C4_humidity_first_two_bytes binary64 _ underground "London" (F64.ofInt 20)
      (goString "10") (goString "0%") 10 (by decide) (by decide) rfl⟩

/-- C5: on the decoded `relative_humidity` strings `""` and `"5"` the slice expression
`Humidity[:2]` panics (slice bounds out of range) instead of returning a parse error;
on `"5%"` the method returns the `Atoi` syntax error with humidity 0. -/
theorem C5_short_humidity_panics :
    weatherUnderground.tempAndHumidity binary64 (netUnderground (F64.ofInt 20) "")
        underground "London" = .panicked (.sliceBounds 2 0) ∧
    weatherUnderground.tempAndHumidity binary64 (netUnderground (F64.ofInt 20) "5")
        underground "London" = .panicked (.sliceBounds 2 1) ∧
    weatherUnderground.tempAndHumidity binary64 (netUnderground (F64.ofInt 20) "5%")
        underground "London"
      = .returned (F64.add (F64.ofInt 20) (F64.ofDecimal 27315 100)) 0
          (some (.syntaxError "Atoi" (goString "5%"))) := by
  decide

/-- C8: when the decoded `relative_humidity` has at least two bytes, so that `Atoi` is
reached, the returned temperature is `C + 273.15`, both when `Atoi` succeeds and when it
returns an error (with humidity 0 and that error). -/
theorem C8_kelvin_conversion {F : Type} (ops : Float64Ops F)
    (net : String → Response (Observation F)) (w : weatherUnderground) (city : String)
    (C : F) (hum : GoString)
    (hnet : net (w.url city) = .decoded ⟨C, hum⟩) (hlen : 2 ≤ hum.length) :
    (∀ h, Atoi (hum.take 2) = .ok h →
      weatherUnderground.tempAndHumidity ops net w city
        = .returned (ops.add C ops.c273_15) h none) ∧
    (∀ err, Atoi (hum.take 2) = .error err →
      weatherUnderground.tempAndHumidity ops net w city
        = .returned (ops.add C ops.c273_15) 0 (some err)) := by
  unfold weatherUnderground.tempAndHumidity
  rw [hnet]
  simp only [sliceTo_ok hum hlen]
  constructor
  · intro h hparse
    simp only [hparse]
  · intro err hparse
    simp only [hparse]

/-- C8, at 20 degrees Celsius with `"87%"` (parse succeeds) and with `"5%"` (parse error):
the temperature is the binary64 value of `20 + 273.15`, that is 293.15. -/
theorem C8_kelvin_conversion_witness :
    weatherUnderground.tempAndHumidity binary64 (netUnderground (F64.ofInt 20) "87%")
        underground "London"
      = .returned (F64.fin false 5157149338920550 (-44)) 87 none ∧
    weatherUnderground.tempAndHumidity binary64 (netUnderground (F64.ofInt 20) "5%")
        underground "London"
      = .returned (F64.fin false 5157149338920550 (-44)) 0
          (some (.syntaxError "Atoi" (goString "5%"))) :=
  ⟨(C8_kelvin_conversion binary64 (netUnderground (F64.ofInt 20) "87%") underground "London"
      (F64.ofInt 20) (goString "87%") (by decide) (by decide)).1 87 rfl,
   (C8_kelvin_conversion binary64 (netUnderground (F64.ofInt 20) "5%") underground "London"
      (F64.ofInt 20) (goString "5%") (by decide) (by decide)).2 _ rfl⟩

/-! ## The transition system: soundness of the step relation -/

namespace multiWeatherProvider

theorem stepMain_sound {F : Type} (ops : Float64Ops F) (mw : multiWeatherProvider F)
    (city : String) (s s1 : State F) (pick : Chan) (h : stepMain ops mw s pick = some s1) :
    Step ops mw city s s1 := by
  unfold stepMain at h
  split at h
  · rename_i j hm
    split at h
    · rename_i hj
      cases h
      exact Step.spawn j hm hj
    · rename_i hj
      cases h
      exact Step.startReceiving j hm hj
  · rename_i i tt th hm
    split at h
    · rename_i hi
      split at h
      · split at h
        · cases h
        · rename_i stuff rest hd
          cases h
          exact Step.receiveData i tt th stuff rest hm hi hd
      · split at h
        · cases h
        · rename_i err rest he
          cases h
          exact Step.receiveError i tt th err rest hm hi he
    · rename_i hi
      cases h
      exact Step.finish i tt th hm hi
  · cases h

theorem stepWorker_sound {F : Type} (ops : Float64Ops F) (mw : multiWeatherProvider F)
    (city : String) (s s1 : State F) (i : Nat) (h : stepWorker mw city s i = some s1) :
    Step ops mw city s s1 := by
  unfold stepWorker at h
  split at h
  · rename_i hw
    split at h
    · cases h
    · rename_i p hp
      split at h
      · rename_i pn hr
        cases h
        exact Step.callPanics i p pn hw hp hr
      · rename_i k hh hr
        cases h
        exact Step.callSucceeds i p k hh hw hp hr
      · rename_i k hh err hr
        cases h
        exact Step.callFails i p k hh err hw hp hr
  · rename_i k hh err hw
    split at h
    · rename_i hfree
      cases h
      exact Step.sendError i k hh err hw hfree
    · cases h
  · rename_i k hh hw
    split at h
    · rename_i hfree
      cases h
      exact Step.sendReading i k hh hw hfree
    · cases h
  · cases h

theorem step_sound {F : Type} (ops : Float64Ops F) (mw : multiWeatherProvider F)
    (city : String) (s s1 : State F) (a : Action) (h : step ops mw city s a = some s1) :
    Step ops mw city s s1 ∧ s.crashed = none := by
  unfold step at h
  split at h
  · cases h
  · rename_i hc
    have hnone : s.crashed = none := by
      cases hcr : s.crashed with
      | none => rfl
      | some p => simp [hcr] at hc
    refine ⟨?_, hnone⟩
    cases a with
    | main pick => exact stepMain_sound ops mw city s s1 pick h
    | worker i => exact stepWorker_sound ops mw city s s1 i h

/-- A property that holds initially and is kept by every step holds after every schedule. -/
theorem run_induction {F : Type} (ops : Float64Ops F) (mw : multiWeatherProvider F)
    (city : String) (P : State F → Prop)
    (hstep : ∀ s s1, P s → s.crashed = none → Step ops mw city s s1 → P s1) :
    ∀ (sched : List Action) (s s1 : State F), P s → run ops mw city s sched = some s1 → P s1 := by
  intro sched
  induction sched with
  | nil =>
    intro s s1 hP h
    simp only [run, Option.some.injEq] at h
    exact h ▸ hP
  | cons a rest ih =>
    intro s s1 hP h
    unfold run at h
    split at h
    · cases h
    · rename_i s2 hs
      obtain ⟨hst, hc⟩ := step_sound ops mw city s s2 a hs
      exact ih s2 s1 (hstep s s2 hP hc hst) h

theorem run_append {F : Type} (ops : Float64Ops F) (mw : multiWeatherProvider F)
    (city : String) (a b : List Action) (s s1 s2 : State F)
    (h1 : run ops mw city s a = some s1) (h2 : run ops mw city s1 b = some s2) :
    run ops mw city s (a ++ b) = some s2 := by
  induction a generalizing s with
  | nil =>
    simp only [run, Option.some.injEq] at h1
    subst h1
    simpa using h2
  | cons x rest ih =>
    simp only [List.cons_append, run] at h1 ⊢
    cases hs : step ops mw city s x with
    | none => simp [hs] at h1
    | some s3 =>
      simp only [hs] at h1 ⊢
      exact ih s3 h1

end multiWeatherProvider

/-! ## The invariant of every call -/

namespace multiWeatherProvider

theorem countP_set_eq {α : Type} (p : α → Bool) (ws : List α) (i : Nat) (w w1 : α)
    (h : ws[i]? = some w) :
    (ws.set i w1).countP p + (if p w then 1 else 0)
      = ws.countP p + (if p w1 then 1 else 0) := by
  induction ws generalizing i with
  | nil => simp at h
  | cons x xs ih =>
    cases i with
    | zero =>
      simp only [List.getElem?_cons_zero, Option.some.injEq] at h
      subst h
      simp only [List.set_cons_zero, List.countP_cons]
      omega
    | succ n =>
      simp only [List.getElem?_cons_succ] at h
      have := ih n h
      simp only [List.set_cons_succ, List.countP_cons]
      omega

theorem lt_length_of_getElem? {α : Type} (ws : List α) (i : Nat) (w : α)
    (h : ws[i]? = some w) : i < ws.length := by
  obtain ⟨hlt, _⟩ := List.getElem?_eq_some.mp h
  exact hlt

theorem getElem?_set_same {α : Type} (ws : List α) (i : Nat) (w w1 : α)
    (h : ws[i]? = some w) : (ws.set i w1)[i]? = some w1 := by
  rw [List.getElem?_set]
  simp [lt_length_of_getElem? ws i w h]

theorem getElem?_set_other {α : Type} (ws : List α) (i j : Nat) (w1 : α) (h : i ≠ j) :
    (ws.set i w1)[j]? = ws[j]? := by
  rw [List.getElem?_set]
  simp [h]

/-- Replacing the state of a worker that has been launched keeps the launch discipline. -/
theorem spawn_clause_set {F : Type} (n : Nat) (m : Main F) (ws : List (Worker F)) (i : Nat)
    (w w1 : Worker F) (hw : ws[i]? = some w) (hne : w ≠ .unspawned)
    (h : ∀ j, m = .spawning j →
      j ≤ n ∧ ∀ (i : Nat) (w : Worker F), ws[i]? = some w → j ≤ i → w = .unspawned) :
    ∀ j, m = .spawning j →
      j ≤ n ∧ ∀ (i1 : Nat) (w2 : Worker F), (ws.set i w1)[i1]? = some w2 → j ≤ i1 →
        w2 = .unspawned := by
  intro j hm
  obtain ⟨hj, hall⟩ := h j hm
  refine ⟨hj, ?_⟩
  intro i1 w2 hget hle
  by_cases hii : i = i1
  · subst hii
    exact absurd (hall i w hw hle) hne
  · rw [getElem?_set_other ws i i1 w1 hii] at hget
    exact hall i1 w2 hget hle

theorem init_inv {F : Type} (mw : multiWeatherProvider F) : Inv mw (init mw) := by
  refine ⟨?_, ?_, ?_, ?_, ?_, ?_⟩
  · simp [init]
  · simp [init, List.countP_replicate, Worker.isDone]
  · simp [init]
  · simp [init]
  · simp [init]
  · intro j hm
    simp only [init, Main.spawning.injEq] at hm
    subst hm
    refine ⟨Nat.zero_le _, ?_⟩
    intro i w hget _
    simp only [init, List.getElem?_replicate] at hget
    split at hget
    · exact (Option.some.inj hget).symm
    · cases hget

theorem step_inv {F : Type} (ops : Float64Ops F) (mw : multiWeatherProvider F)
    (city : String) (s s1 : State F) (hinv : Inv mw s) (hstep : Step ops mw city s s1) :
    Inv mw s1 := by
  obtain ⟨hlen, hsd, hse, hrecv, herrs, hspawn⟩ := hinv
  cases hstep with
  | spawn j hm hj =>
    obtain ⟨_, hall⟩ := hspawn j hm
    have hjl : j < s.workers.length := by omega
    have hw : s.workers[j]? = some .unspawned := by
      have hsome : s.workers[j]? = some s.workers[j] := List.getElem?_eq_getElem hjl
      rw [hsome, hall j _ hsome (Nat.le_refl j)]
    have h1 := countP_set_eq Worker.isDone s.workers j _ .calling hw
    have h2 := countP_set_eq Worker.pastErr s.workers j _ .calling hw
    simp only [Worker.isDone, Worker.pastErr, Bool.false_eq_true, if_false, if_true,
      Nat.add_zero] at h1 h2
    refine ⟨?_, ?_, ?_, ?_, ?_, ?_⟩
    · simpa using hlen
    · simp only; omega
    · simp only; omega
    · simpa using hrecv
    · simpa using herrs
    · intro j1 hm1
      simp only [Main.spawning.injEq] at hm1
      subst hm1
      refine ⟨hj, ?_⟩
      intro i w hget hle
      have hne : j ≠ i := by omega
      simp only [getElem?_set_other s.workers j i .calling hne] at hget
      exact hall i w hget (by omega)
  | startReceiving j hm hj =>
    exact ⟨hlen, hsd, hse, hrecv, herrs, by intro j1 hm1; cases hm1⟩
  | receiveData i tt th stuff rest hm hi hd =>
    refine ⟨hlen, hsd, hse, ?_, herrs, by intro j1 hm1; cases hm1⟩
    simp only [List.length_append, List.length_singleton]
    rw [hd] at hrecv
    simp only [List.length_cons] at hrecv
    omega
  | receiveError i tt th err rest hm hi he =>
    refine ⟨hlen, hsd, hse, hrecv, ?_, by intro j1 hm1; cases hm1⟩
    rw [he] at herrs
    simp only [List.length_cons] at herrs
    simp only
    omega
  | finish i tt th hm hi =>
    exact ⟨hlen, hsd, hse, hrecv, herrs, by intro j1 hm1; cases hm1⟩
  | callPanics i p pn hw hp hr =>
    exact ⟨hlen, hsd, hse, hrecv, herrs, hspawn⟩
  | callSucceeds i p k h hw hp hr =>
    have h1 := countP_set_eq Worker.isDone s.workers i _ (.sendData k h) hw
    have h2 := countP_set_eq Worker.pastErr s.workers i _ (.sendData k h) hw
    simp only [Worker.isDone, Worker.pastErr, Bool.false_eq_true, if_false, if_true,
      Nat.add_zero] at h1 h2
    refine ⟨?_, ?_, ?_, hrecv, herrs, ?_⟩
    · simpa using hlen
    · simp only; omega
    · simp only; omega
    · exact spawn_clause_set mw.length s.main s.workers i _ _ hw (by simp) hspawn
  | callFails i p k h err hw hp hr =>
    have h1 := countP_set_eq Worker.isDone s.workers i _ (.sendErr k h err) hw
    have h2 := countP_set_eq Worker.pastErr s.workers i _ (.sendErr k h err) hw
    simp only [Worker.isDone, Worker.pastErr, Bool.false_eq_true, if_false, if_true,
      Nat.add_zero] at h1 h2
    refine ⟨?_, ?_, ?_, hrecv, herrs, ?_⟩
    · simpa using hlen
    · simp only; omega
    · simp only; omega
    · exact spawn_clause_set mw.length s.main s.workers i _ _ hw (by simp) hspawn
  | sendError i k h err hw hfree =>
    have h1 := countP_set_eq Worker.isDone s.workers i _ (.sendData k h) hw
    have h2 := countP_set_eq Worker.pastErr s.workers i _ (.sendData k h) hw
    simp only [Worker.isDone, Worker.pastErr, Bool.false_eq_true, if_false, if_true,
      Nat.add_zero] at h1 h2
    refine ⟨?_, ?_, ?_, hrecv, ?_, ?_⟩
    · simpa using hlen
    · simp only; omega
    · simp only; omega
    · simp only [List.length_append, List.length_singleton]; omega
    · exact spawn_clause_set mw.length s.main s.workers i _ _ hw (by simp) hspawn
  | sendReading i k h hw hfree =>
    have h1 := countP_set_eq Worker.isDone s.workers i _ .done hw
    have h2 := countP_set_eq Worker.pastErr s.workers i _ .done hw
    simp only [Worker.isDone, Worker.pastErr, Bool.false_eq_true, if_false, if_true,
      Nat.add_zero] at h1 h2
    refine ⟨?_, ?_, ?_, ?_, herrs, ?_⟩
    · simpa using hlen
    · simp only; omega
    · simp only; omega
    · simp only [List.length_append, List.length_singleton]; omega
    · exact spawn_clause_set mw.length s.main s.workers i _ _ hw (by simp) hspawn

theorem run_inv {F : Type} (ops : Float64Ops F) (mw : multiWeatherProvider F) (city : String)
    (sched : List Action) (s s1 : State F) (hinv : Inv mw s)
    (h : run ops mw city s sched = some s1) : Inv mw s1 :=
  run_induction ops mw city (Inv mw)
    (fun a b hP _ hst => step_inv ops mw city a b hP hst) sched s s1 hinv h

end multiWeatherProvider

/-! ## Calls in which every provider succeeds -/

namespace multiWeatherProvider

theorem wrap64_add_left (a b : Int) : wrap64 (wrap64 a + b) = wrap64 (a + b) := by
  unfold wrap64
  omega

theorem wrap64_of_range (x : Int) (h1 : -2 ^ 63 ≤ x) (h2 : x < 2 ^ 63) : wrap64 x = x := by
  unfold wrap64
  omega

theorem wrap64_range (x : Int) : -2 ^ 63 ≤ wrap64 x ∧ wrap64 x < 2 ^ 63 := by
  unfold wrap64
  omega

theorem tdiv_range (x : Int) (n : Nat) (h1 : -2 ^ 63 ≤ x) (h2 : x < 2 ^ 63) :
    -2 ^ 63 ≤ Int.tdiv x n ∧ Int.tdiv x n < 2 ^ 63 := by
  have hn0 : (0 : Int) ≤ (n : Int) := Int.ofNat_nonneg n
  rcases Int.le_total 0 x with hx | hx
  · have h3 : 0 ≤ Int.tdiv x n := Int.tdiv_nonneg hx hn0
    have h4 : Int.tdiv x n ≤ x := by
      rw [Int.tdiv_eq_ediv hx hn0]
      exact Int.ediv_le_self _ hx
    omega
  · obtain ⟨y, rfl⟩ : ∃ y, x = -y := ⟨-x, by omega⟩
    have hy : 0 ≤ y := by omega
    rw [Int.neg_tdiv]
    have h3 : 0 ≤ Int.tdiv y n := Int.tdiv_nonneg hy hn0
    have h4 : Int.tdiv y n ≤ y := by
      rw [Int.tdiv_eq_ediv hy hn0]
      exact Int.ediv_le_self _ hy
    omega

theorem foldl_iadd {F : Type} (rs : List (weatherTuple F)) (a : Int) :
    rs.foldl (fun t r => iadd t r.humidity) (wrap64 a)
      = wrap64 (a + (rs.map weatherTuple.humidity).sum) := by
  induction rs generalizing a with
  | nil => simp
  | cons r rest ih =>
    simp only [List.foldl_cons, List.map_cons, List.sum_cons]
    have h : iadd (wrap64 a) r.humidity = wrap64 (a + r.humidity) :=
      wrap64_add_left a r.humidity
    rw [h, ih, Int.add_assoc]

theorem sumHumidity_eq {F : Type} (rs : List (weatherTuple F)) :
    sumHumidity rs = wrap64 (rs.map weatherTuple.humidity).sum := by
  have h := foldl_iadd rs 0
  have h0 : wrap64 0 = 0 := by decide
  rw [h0, Int.zero_add] at h
  exact h

theorem pendingAll_set {F : Type} (ws : List (Worker F)) (rs : List (weatherTuple F))
    (i : Nat) (w w1 : Worker F) (r : weatherTuple F)
    (hw : ws[i]? = some w) (hr : rs[i]? = some r) :
    ∃ a b, pendingAll ws rs = a ++ pending w r ++ b ∧
      pendingAll (ws.set i w1) rs = a ++ pending w1 r ++ b := by
  induction ws generalizing i rs with
  | nil => simp at hw
  | cons x xs ih =>
    cases rs with
    | nil => simp at hr
    | cons y ys =>
      cases i with
      | zero =>
        simp only [List.getElem?_cons_zero, Option.some.injEq] at hw hr
        subst hw
        subst hr
        exact ⟨[], pendingAll xs ys, by simp [pendingAll], by simp [pendingAll]⟩
      | succ n =>
        simp only [List.getElem?_cons_succ] at hw hr
        obtain ⟨a, b, h1, h2⟩ := ih ys n hw hr
        refine ⟨pending x y ++ a, b, ?_, ?_⟩
        · simp [pendingAll, h1]
        · simp [pendingAll, h2]

theorem perm_move {α : Type} (rcv data a b : List α) (x : α) :
    (rcv ++ (data ++ [x]) ++ (a ++ [] ++ b)).Perm (rcv ++ data ++ (a ++ [x] ++ b)) := by
  rw [← Multiset.coe_eq_coe]
  simp only [← Multiset.coe_add]
  abel


theorem provider_succeeds {F : Type} (mw : multiWeatherProvider F) (city : String)
    (rs : List (weatherTuple F)) (hok : mw.map (fun p => p city) = rs.map succeeds)
    (i : Nat) (p : weatherProvider F) (hp : mw[i]? = some p) :
    ∃ r, rs[i]? = some r ∧ p city = succeeds r := by
  have h := congrArg (fun l => l[i]?) hok
  simp only [List.getElem?_map, hp, Option.map_some'] at h
  cases hr : rs[i]? with
  | none => simp [hr] at h
  | some r =>
    simp only [hr, Option.map_some', Option.some.injEq] at h
    exact ⟨r, rfl, h⟩

theorem length_eq_of_ok {F : Type} (mw : multiWeatherProvider F) (city : String)
    (rs : List (weatherTuple F)) (hok : mw.map (fun p => p city) = rs.map succeeds) :
    rs.length = mw.length := by
  have h := congrArg List.length hok
  simpa using h.symm

theorem no_unspawned_set {F : Type} (ws : List (Worker F)) (i : Nat) (w1 : Worker F)
    (hne : w1 ≠ .unspawned) (j : Nat) (h : ws[j]? ≠ some Worker.unspawned) :
    (ws.set i w1)[j]? ≠ some Worker.unspawned := by
  rw [List.getElem?_set]
  split
  · split
    · intro hc
      exact hne (Option.some.inj hc)
    · simp
  · exact h

theorem no_sendErr_set {F : Type} (ws : List (Worker F)) (i : Nat) (w1 : Worker F)
    (hne : ∀ k h e, w1 ≠ .sendErr k h e)
    (hall : ∀ (i : Nat) (k : F) (h : Int) (e : GoError), ws[i]? ≠ some (Worker.sendErr k h e)) :
    ∀ (j : Nat) (k : F) (h : Int) (e : GoError),
      (ws.set i w1)[j]? ≠ some (Worker.sendErr k h e) := by
  intro j k h e
  rw [List.getElem?_set]
  split
  · split
    · intro hc
      exact hne k h e (Option.some.inj hc)
    · simp
  · exact hall j k h e

theorem sumTemp_append {F : Type} (ops : Float64Ops F) (rs : List (weatherTuple F))
    (x : weatherTuple F) : sumTemp ops (rs ++ [x]) = ops.add (sumTemp ops rs) x.temp := by
  simp [sumTemp, List.foldl_append]

theorem sumHumidity_append {F : Type} (rs : List (weatherTuple F)) (x : weatherTuple F) :
    sumHumidity (rs ++ [x]) = iadd (sumHumidity rs) x.humidity := by
  simp [sumHumidity, List.foldl_append]

theorem init_invOk {F : Type} (ops : Float64Ops F) (mw : multiWeatherProvider F)
    (city : String) (rs : List (weatherTuple F))
    (hok : mw.map (fun p => p city) = rs.map succeeds) : InvOk ops mw rs (init mw) := by
  have hlen := length_eq_of_ok mw city rs hok
  refine ⟨rfl, ?_, rfl, ?_, ?_, ?_, ?_⟩
  · intro i k h e
    simp only [init, List.getElem?_replicate]
    split <;> simp
  · intro j hm
    simp only [init, Main.spawning.injEq] at hm
    subst hm
    exact ⟨rfl, fun i hi => absurd hi (Nat.not_lt_zero i)⟩
  · simp only [init, List.nil_append]
    rw [← hlen]
    clear hok hlen
    induction rs with
    | nil => simp [pendingAll]
    | cons r rest ih =>
      simp only [List.length_cons, List.replicate_succ, pendingAll, pending,
        List.singleton_append]
      exact List.Perm.cons r ih
  · intro i tt th hm
    simp [init] at hm
  · intro out hm
    simp [init] at hm


theorem step_invOk {F : Type} (ops : Float64Ops F) (mw : multiWeatherProvider F)
    (city : String) (rs : List (weatherTuple F))
    (hok : mw.map (fun p => p city) = rs.map succeeds) (s s1 : State F)
    (hinv : Inv mw s) (h : InvOk ops mw rs s) (hstep : Step ops mw city s s1) :
    InvOk ops mw rs s1 := by
  have hlenrs := length_eq_of_ok mw city rs hok
  obtain ⟨halive, hnoErr, hnoErrors, hspawned, hperm, hrecv, hfin⟩ := h
  cases hstep with
  | spawn j hm hj =>
    obtain ⟨_, hall⟩ := hinv.spawn j hm
    have hjl : j < s.workers.length := by rw [hinv.len]; exact hj
    have hw : s.workers[j]? = some .unspawned := by
      have hsome : s.workers[j]? = some s.workers[j] := List.getElem?_eq_getElem hjl
      rw [hsome, hall j _ hsome (Nat.le_refl j)]
    have hjr : j < rs.length := by omega
    obtain ⟨a, b, h1, h2⟩ := pendingAll_set s.workers rs j .unspawned .calling rs[j] hw
      (List.getElem?_eq_getElem hjr)
    refine ⟨halive, ?_, hnoErrors, ?_, ?_, ?_, ?_⟩
    · exact no_sendErr_set s.workers j .calling (by intro k h e; simp) hnoErr
    · intro j1 hm1
      simp only [Main.spawning.injEq] at hm1
      subst hm1
      refine ⟨(hspawned j hm).1, ?_⟩
      intro i hi
      by_cases hij : i = j
      · subst hij
        simp only [getElem?_set_same s.workers i _ .calling hw]
        simp
      · simp only [getElem?_set_other s.workers j i .calling (Ne.symm hij)]
        exact (hspawned j hm).2 i (by omega)
    · show (s.received ++ s.data ++ pendingAll (s.workers.set j .calling) rs).Perm rs
      rw [h2]
      rw [h1] at hperm
      simpa [pending] using hperm
    · intro i tt th hm1
      simp at hm1
    · intro out hm1
      simp at hm1
  | startReceiving j hm hj =>
    obtain ⟨hrcv, hall⟩ := hspawned j hm
    refine ⟨halive, hnoErr, hnoErrors, ?_, hperm, ?_, ?_⟩
    · intro j1 hm1
      simp at hm1
    · intro i tt th hm1
      simp only [Main.receiving.injEq] at hm1
      obtain ⟨hi, htt, hth⟩ := hm1
      subst hi htt hth
      refine ⟨by simp [hrcv], by simp [hrcv, sumTemp], by simp [hrcv, sumHumidity], ?_⟩
      intro j1 hget
      have hlt := lt_length_of_getElem? s.workers j1 _ hget
      have := hinv.len
      exact hall j1 (by omega) hget
    · intro out hm1
      simp at hm1
  | receiveData i tt th stuff rest hm hi hd =>
    obtain ⟨hi1, htt, hth, hun⟩ := hrecv i tt th hm
    refine ⟨halive, hnoErr, hnoErrors, ?_, ?_, ?_, ?_⟩
    · intro j1 hm1
      simp at hm1
    · show (s.received ++ [stuff] ++ rest ++ pendingAll s.workers rs).Perm rs
      rw [hd] at hperm
      simpa using hperm
    · intro i1 tt1 th1 hm1
      simp only [Main.receiving.injEq] at hm1
      obtain ⟨h1, h2, h3⟩ := hm1
      subst h1 h2 h3
      refine ⟨by simp [hi1], ?_, ?_, hun⟩
      · rw [sumTemp_append, htt]
      · rw [sumHumidity_append, hth]
    · intro out hm1
      simp at hm1
  | receiveError i tt th err rest hm hi he =>
    rw [hnoErrors] at he
    cases he
  | finish i tt th hm hi =>
    obtain ⟨hi1, htt, hth, hun⟩ := hrecv i tt th hm
    refine ⟨halive, hnoErr, hnoErrors, ?_, hperm, ?_, ?_⟩
    · intro j1 hm1
      simp at hm1
    · intro i1 tt1 th1 hm1
      simp at hm1
    · intro out hm1
      simp only [Main.finished.injEq] at hm1
      subst hm1
      refine ⟨by rw [htt, hth], ?_⟩
      show s.received.length = mw.length
      have h1 := hinv.recv
      have h2 := hinv.sentData
      have h3 : s.workers.countP Worker.isDone ≤ s.workers.length := List.countP_le_length _
      have h4 := hinv.len
      omega
  | callPanics i p pn hw hp hr =>
    obtain ⟨r, _, hr1⟩ := provider_succeeds mw city rs hok i p hp
    rw [hr] at hr1
    simp [succeeds] at hr1
  | callSucceeds i p k h hw hp hr =>
    obtain ⟨r, hri, hr1⟩ := provider_succeeds mw city rs hok i p hp
    rw [hr] at hr1
    simp only [succeeds, Outcome.returned.injEq, and_true] at hr1
    obtain ⟨a, b, h1, h2⟩ := pendingAll_set s.workers rs i .calling (.sendData k h) r hw hri
    refine ⟨halive, ?_, hnoErrors, ?_, ?_, ?_, hfin⟩
    · exact no_sendErr_set s.workers i (.sendData k h) (by intro k h e; simp) hnoErr
    · intro j hm
      obtain ⟨h3, h4⟩ := hspawned j hm
      exact ⟨h3, fun i1 hi1 => no_unspawned_set s.workers i _ (by simp) i1 (h4 i1 hi1)⟩
    · show (s.received ++ s.data ++ pendingAll (s.workers.set i (.sendData k h)) rs).Perm rs
      rw [h2]
      rw [h1] at hperm
      have hr2 : r = ⟨k, h⟩ := by
        cases r
        simp only [weatherTuple.mk.injEq]
        exact ⟨hr1.1.symm, hr1.2.symm⟩
      simpa [pending, hr2] using hperm
    · intro i1 tt th hm
      obtain ⟨h3, h4, h5, h6⟩ := hrecv i1 tt th hm
      exact ⟨h3, h4, h5, fun j => no_unspawned_set s.workers i _ (by simp) j (h6 j)⟩
  | callFails i p k h err hw hp hr =>
    obtain ⟨r, _, hr1⟩ := provider_succeeds mw city rs hok i p hp
    rw [hr] at hr1
    simp [succeeds] at hr1
  | sendError i k h err hw hfree =>
    exact absurd hw (hnoErr i k h err)
  | sendReading i k h hw hfree =>
    have hir : i < rs.length := by
      have := lt_length_of_getElem? s.workers i _ hw
      have := hinv.len
      omega
    obtain ⟨a, b, h1, h2⟩ := pendingAll_set s.workers rs i (.sendData k h) .done rs[i] hw
      (List.getElem?_eq_getElem hir)
    refine ⟨halive, ?_, hnoErrors, ?_, ?_, ?_, hfin⟩
    · exact no_sendErr_set s.workers i .done (by intro k h e; simp) hnoErr
    · intro j hm
      obtain ⟨h3, h4⟩ := hspawned j hm
      exact ⟨h3, fun i1 hi1 => no_unspawned_set s.workers i _ (by simp) i1 (h4 i1 hi1)⟩
    · show (s.received ++ (s.data ++ [weatherTuple.mk k h])
        ++ pendingAll (s.workers.set i .done) rs).Perm rs
      rw [h2]
      rw [h1] at hperm
      simp only [pending] at hperm ⊢
      exact (perm_move s.received s.data a b (weatherTuple.mk k h)).trans hperm
    · intro i1 tt th hm
      obtain ⟨h3, h4, h5, h6⟩ := hrecv i1 tt th hm
      exact ⟨h3, h4, h5, fun j => no_unspawned_set s.workers i _ (by simp) j (h6 j)⟩

theorem run_invOk {F : Type} (ops : Float64Ops F) (mw : multiWeatherProvider F)
    (city : String) (rs : List (weatherTuple F))
    (hok : mw.map (fun p => p city) = rs.map succeeds) (sched : List Action)
    (s s1 : State F) (hinv : Inv mw s ∧ InvOk ops mw rs s)
    (h : run ops mw city s sched = some s1) : Inv mw s1 ∧ InvOk ops mw rs s1 :=
  run_induction ops mw city (fun x => Inv mw x ∧ InvOk ops mw rs x)
    (fun a b hP _ hst =>
      ⟨step_inv ops mw city a b hP.1 hst, step_invOk ops mw city rs hok a b hP.1 hP.2 hst⟩)
    sched s s1 hinv h


theorem sum_map_set {α : Type} (f : α → Nat) (ws : List α) (i : Nat) (w w1 : α)
    (h : ws[i]? = some w) :
    ((ws.set i w1).map f).sum + f w = (ws.map f).sum + f w1 := by
  induction ws generalizing i with
  | nil => simp at h
  | cons x xs ih =>
    cases i with
    | zero =>
      simp only [List.getElem?_cons_zero, Option.some.injEq] at h
      subst h
      simp only [List.set_cons_zero, List.map_cons, List.sum_cons]
      omega
    | succ n =>
      simp only [List.getElem?_cons_succ] at h
      have := ih n h
      simp only [List.set_cons_succ, List.map_cons, List.sum_cons]
      omega

/-- The worker the aggregator is about to launch has not been launched. -/
theorem spawn_target {F : Type} (mw : multiWeatherProvider F) (s : State F) (hinv : Inv mw s)
    (j : Nat) (hm : s.main = .spawning j) (hj : j < mw.length) :
    s.workers[j]? = some .unspawned := by
  obtain ⟨_, hall⟩ := hinv.spawn j hm
  have hjl : j < s.workers.length := by rw [hinv.len]; exact hj
  have hsome : s.workers[j]? = some s.workers[j] := List.getElem?_eq_getElem hjl
  rw [hsome, hall j _ hsome (Nat.le_refl j)]

/-- Every step other than a provider panic lowers the weight. -/
theorem step_weight {F : Type} (ops : Float64Ops F) (mw : multiWeatherProvider F)
    (city : String) (s s1 : State F) (hinv : Inv mw s) (hstep : Step ops mw city s s1)
    (h1 : s1.crashed = none) :
    weight mw.length s1 < weight mw.length s := by
  cases hstep with
  | spawn j hm hj =>
    have h2 := sum_map_set Worker.weight s.workers j _ .calling (spawn_target mw s hinv j hm hj)
    simp only [Worker.weight] at h2
    simp only [weight, hm]
    omega
  | startReceiving j hm hj =>
    simp only [weight, hm]
    omega
  | receiveData i tt th stuff rest hm hi hd =>
    simp only [weight, hm]
    omega
  | receiveError i tt th err rest hm hi he =>
    simp only [weight, hm]
    omega
  | finish i tt th hm hi =>
    simp only [weight, hm]
    omega
  | callPanics i p pn hw hp hr =>
    simp at h1
  | callSucceeds i p k h hw hp hr =>
    have h2 := sum_map_set Worker.weight s.workers i _ (.sendData k h) hw
    simp only [Worker.weight] at h2
    simp only [weight]
    omega
  | callFails i p k h err hw hp hr =>
    have h2 := sum_map_set Worker.weight s.workers i _ (.sendErr k h err) hw
    simp only [Worker.weight] at h2
    simp only [weight]
    omega
  | sendError i k h err hw hfree =>
    have h2 := sum_map_set Worker.weight s.workers i _ (.sendData k h) hw
    simp only [Worker.weight] at h2
    simp only [weight]
    omega
  | sendReading i k h hw hfree =>
    have h2 := sum_map_set Worker.weight s.workers i _ .done hw
    simp only [Worker.weight] at h2
    simp only [weight]
    omega


theorem exists_not_done {F : Type} (ws : List (Worker F))
    (h : ws.countP Worker.isDone < ws.length) :
    ∃ (i : Nat) (w : Worker F), ws[i]? = some w ∧ w.isDone = false := by
  by_contra hcon
  have hall : ∀ w ∈ ws, Worker.isDone w = true := by
    intro w hw
    obtain ⟨i, hi⟩ := List.mem_iff_getElem?.mp hw
    by_contra hd
    exact hcon ⟨i, w, hi, by simpa using hd⟩
  have := List.countP_eq_length.mpr hall
  omega

/-- While the call has not ended and every provider succeeds, some step can be taken. -/
theorem progress {F : Type} (ops : Float64Ops F) (mw : multiWeatherProvider F)
    (city : String) (rs : List (weatherTuple F))
    (hok : mw.map (fun p => p city) = rs.map succeeds) (s : State F)
    (hinv : Inv mw s) (h : InvOk ops mw rs s) (hnf : ∀ out, s.main ≠ .finished out) :
    ∃ a s1, step ops mw city s a = some s1 := by
  have halive := h.alive
  cases hmain : s.main with
  | spawning j =>
    refine ⟨.main .data, ?_⟩
    by_cases hj : j < mw.length <;> simp [step, halive, stepMain, hmain, hj]
  | finished out => exact absurd hmain (hnf out)
  | receiving i tt th =>
    obtain ⟨hi1, _, _, hun⟩ := h.recv i tt th hmain
    by_cases hi : i < mw.length
    · cases hd : s.data with
      | cons stuff rest =>
        exact ⟨.main .data, by simp [step, halive, stepMain, hmain, hi, hd]⟩
      | nil =>
        have hcount : s.workers.countP Worker.isDone < s.workers.length := by
          have h1 := hinv.recv
          have h2 := hinv.sentData
          have h3 := hinv.len
          rw [hd] at h1
          simp only [List.length_nil] at h1
          omega
        obtain ⟨idx, w, hget, hnd⟩ := exists_not_done s.workers hcount
        refine ⟨.worker idx, ?_⟩
        cases w with
        | unspawned => exact absurd hget (hun idx)
        | sendErr k hh e => exact absurd hget (h.noErr idx k hh e)
        | done => simp [Worker.isDone] at hnd
        | sendData k hh =>
          have hpos : 0 < mw.length := by omega
          simp [step, halive, stepWorker, hget, hd, hpos]
        | calling =>
          have hlt : idx < mw.length := by
            have := lt_length_of_getElem? s.workers idx _ hget
            have := hinv.len
            omega
          have hp : mw[idx]? = some mw[idx] := List.getElem?_eq_getElem hlt
          obtain ⟨r, _, hr⟩ := provider_succeeds mw city rs hok idx _ hp
          simp [step, halive, stepWorker, hget, hp, hr, succeeds]
    · exact ⟨.main .data, by simp [step, halive, stepMain, hmain, hi]⟩

/-- From every state of a call whose providers all succeed, some continuation ends the call. -/
theorem exists_finish {F : Type} (ops : Float64Ops F) (mw : multiWeatherProvider F)
    (city : String) (rs : List (weatherTuple F))
    (hok : mw.map (fun p => p city) = rs.map succeeds) :
    ∀ (n : Nat) (s : State F), Inv mw s → InvOk ops mw rs s → weight mw.length s ≤ n →
      ∃ more s1 out, run ops mw city s more = some s1 ∧ s1.main = .finished out := by
  intro n
  induction n with
  | zero =>
    intro s hinv h hw
    by_cases hf : ∃ out, s.main = .finished out
    · obtain ⟨out, hout⟩ := hf
      exact ⟨[], s, out, rfl, hout⟩
    · have hnf : ∀ out, s.main ≠ .finished out := fun out hc => hf ⟨out, hc⟩
      obtain ⟨a, s1, hs⟩ := progress ops mw city rs hok s hinv h hnf
      obtain ⟨hst, _⟩ := step_sound ops mw city s s1 a hs
      have h2 := step_invOk ops mw city rs hok s s1 hinv h hst
      have := step_weight ops mw city s s1 hinv hst h2.alive
      omega
  | succ n ih =>
    intro s hinv h hw
    by_cases hf : ∃ out, s.main = .finished out
    · obtain ⟨out, hout⟩ := hf
      exact ⟨[], s, out, rfl, hout⟩
    · have hnf : ∀ out, s.main ≠ .finished out := fun out hc => hf ⟨out, hc⟩
      obtain ⟨a, s1, hs⟩ := progress ops mw city rs hok s hinv h hnf
      obtain ⟨hst, _⟩ := step_sound ops mw city s s1 a hs
      have h1 := step_inv ops mw city s s1 hinv hst
      have h2 := step_invOk ops mw city rs hok s s1 hinv h hst
      have h3 := step_weight ops mw city s s1 hinv hst h2.alive
      obtain ⟨more, s2, out, hrun, hout⟩ := ih s1 h1 h2 (by omega)
      refine ⟨a :: more, s2, out, ?_, hout⟩
      simp only [run, hs]
      exact hrun


theorem run_weight {F : Type} (ops : Float64Ops F) (mw : multiWeatherProvider F)
    (city : String) (rs : List (weatherTuple F))
    (hok : mw.map (fun p => p city) = rs.map succeeds) :
    ∀ (sched : List Action) (s s1 : State F), Inv mw s → InvOk ops mw rs s →
      run ops mw city s sched = some s1 →
      sched.length + weight mw.length s1 ≤ weight mw.length s := by
  intro sched
  induction sched with
  | nil =>
    intro s s1 _ _ h
    simp only [run, Option.some.injEq] at h
    subst h
    simp
  | cons a rest ih =>
    intro s s1 hinv h hrun
    simp only [run] at hrun
    cases hs : step ops mw city s a with
    | none => simp [hs] at hrun
    | some s2 =>
      simp only [hs] at hrun
      obtain ⟨hst, _⟩ := step_sound ops mw city s s2 a hs
      have h1 := step_inv ops mw city s s2 hinv hst
      have h2 := step_invOk ops mw city rs hok s s2 hinv h hst
      have h3 := step_weight ops mw city s s2 hinv hst h2.alive
      have h4 := ih s2 s1 h1 h2 hrun
      simp only [List.length_cons]
      omega

theorem weight_init {F : Type} (mw : multiWeatherProvider F) :
    weight mw.length (init mw) = 5 * mw.length + 2 := by
  simp only [weight, init, List.map_replicate, List.sum_replicate, Worker.weight,
    smul_eq_mul]
  omega

/-- The state in which a call whose providers all succeed has ended: all readings have been
received, in some order, and the result is computed from them by lines 203-206. -/
theorem finished_received {F : Type} (ops : Float64Ops F) (mw : multiWeatherProvider F)
    (rs : List (weatherTuple F)) (hlen : rs.length = mw.length) (s : State F)
    (h : InvOk ops mw rs s) (out : Outcome F) (hm : s.main = .finished out) :
    s.received.Perm rs ∧
      out = finish ops mw.length (sumTemp ops s.received) (sumHumidity s.received) := by
  obtain ⟨hout, hlen1⟩ := h.fin out hm
  refine ⟨?_, hout⟩
  have hperm := h.perm
  have hl := hperm.length_eq
  simp only [List.length_append] at hl
  have hd : s.data = [] := List.length_eq_zero.mp (by omega)
  have hp : pendingAll s.workers rs = [] := List.length_eq_zero.mp (by omega)
  rw [hd, hp] at hperm
  simpa using hperm

/-- Lines 203-206 on a non-empty provider list: no panic, and the humidity is the truncated
quotient of the wrapped sum. -/
theorem finish_nonempty {F : Type} (ops : Float64Ops F) (n : Nat) (hn : 0 < n)
    (rcv : List (weatherTuple F)) :
    finish ops n (sumTemp ops rcv) (sumHumidity rcv)
      = .returned
          (ops.sub (ops.mul (ops.div (sumTemp ops rcv) (ops.ofInt n)) ops.c1_8) ops.c459_67)
          (Int.tdiv (wrap64 (rcv.map weatherTuple.humidity).sum) n) none := by
  have hn0 : (n : Int) ≠ 0 := by omega
  have hr := wrap64_range (rcv.map weatherTuple.humidity).sum
  have ht := tdiv_range (wrap64 (rcv.map weatherTuple.humidity).sum) n hr.1 hr.2
  simp only [finish, idiv, hn0, if_false, sumHumidity_eq]
  rw [wrap64_of_range _ ht.1 ht.2]

/-- The result of a call whose providers all succeed with readings `rs`. -/
theorem result_all_succeed {F : Type} (ops : Float64Ops F) (mw : multiWeatherProvider F)
    (city : String) (rs : List (weatherTuple F)) (hne : mw ≠ [])
    (hok : mw.map (fun p => p city) = rs.map succeeds)
    (sched : List Action) (s : State F) (out : Outcome F)
    (hrun : run ops mw city (init mw) sched = some s) (hm : s.main = .finished out) :
    s.received.Perm rs ∧
      out = .returned
        (ops.sub (ops.mul (ops.div (sumTemp ops s.received) (ops.ofInt mw.length)) ops.c1_8)
          ops.c459_67)
        (Int.tdiv (wrap64 (rs.map weatherTuple.humidity).sum) mw.length) none := by
  have hlen := length_eq_of_ok mw city rs hok
  have hI := run_invOk ops mw city rs hok sched (init mw) s
    ⟨init_inv mw, init_invOk ops mw city rs hok⟩ hrun
  obtain ⟨hperm, hout⟩ := finished_received ops mw rs hlen s hI.2 out hm
  have hpos : 0 < mw.length := List.length_pos.mpr hne
  refine ⟨hperm, ?_⟩
  rw [hout, finish_nonempty ops mw.length hpos s.received,
    (hperm.map weatherTuple.humidity).sum_eq]

/-- Unfolding of `tempAndHumidity`: the schedule runs and ends in a finished state. -/
theorem tempAndHumidity_eq_some {F : Type} (ops : Float64Ops F) (mw : multiWeatherProvider F)
    (city : String) (sched : List Action) (out : Outcome F) :
    tempAndHumidity ops mw city sched = some out ↔
      ∃ s, run ops mw city (init mw) sched = some s ∧ s.main = .finished out := by
  unfold tempAndHumidity
  constructor
  · intro h
    split at h
    · rename_i s hs
      split at h
      · rename_i o ho
        simp only [Option.some.injEq] at h
        subst h
        exact ⟨s, hs, ho⟩
      · cases h
    · cases h
  · rintro ⟨s, hs, hm⟩
    simp only [hs, hm]

end multiWeatherProvider

/-! ## The claims about `multiWeatherProvider.tempAndHumidity` -/

/-- C1: in the call on `oneFails` (OpenWeatherMap fails with an error, Weather Underground
succeeds with 293.15 kelvin and humidity 87) the failing worker sends its error on `errors`
and then a reading `(0, 0)` on `data`; when the `select` takes a message from `data` twice,
the call returns a nil error, the temperature -195.83500000000004 and the humidity 43
instead of the error. When the `select` takes the message from `errors`, the call returns
the error with temperature 0 and humidity 0. -/
theorem C1_error_can_be_lost :
    oneFails.map (fun p => p "London")
      = [.returned (F64.fin false 0 0) 0 (some (.other "connection refused")),
         .returned (F64.fin false 5157149338920550 (-44)) 87 none] ∧
    tempAndHumidity binary64 oneFails "London" dataTwice
      = some (.returned (F64.fin true 6890331508016416 (-45)) 43 none) ∧
    tempAndHumidity binary64 oneFails "London" errorTaken
      = some (.returned (F64.fin false 0 0) 0 (some (.other "connection refused"))) := by
  decide

/-- C2 fails: on the empty provider list the call panics with an integer division by zero. -/
theorem C2_empty_panics :
    tempAndHumidity binary64 [] "London" [.main .data, .main .data]
      = some (.panicked .divideByZero) := by
  decide

/-- C2, amended: on the empty provider list the call ends after two steps of the aggregator
in the run-time panic of the integer division `totalHumidity / len(mw)`, and under no
schedule does it end in any other way; no error value is returned. -/
theorem C2_empty_always_panics {F : Type} (ops : Float64Ops F) (city : String) :
    tempAndHumidity ops [] city [.main .data, .main .data] = some (.panicked .divideByZero) ∧
    ∀ sched out, tempAndHumidity ops [] city sched = some out →
      out = .panicked .divideByZero := by
  constructor
  · rfl
  · intro sched out h
    rw [tempAndHumidity_eq_some] at h
    obtain ⟨s, hrun, hm⟩ := h
    have hw : ∀ (x : State F) (i : Nat), x.workers = [] → stepWorker [] city x i = none := by
      intro x i hx
      simp [stepWorker, hx]
    match sched with
    | [] =>
      simp only [run, Option.some.injEq] at hrun
      subst hrun
      simp [init] at hm
    | .worker i :: _ => simp [run, step, init, stepWorker] at hrun
    | [.main _] =>
      simp only [run, step, init, stepMain] at hrun
      simp at hrun
      subst hrun
      simp at hm
    | .main _ :: .worker i :: _ =>
      simp [run, step, init, stepMain, stepWorker] at hrun
    | [.main _, .main _] =>
      simp [run, step, init, stepMain, finish, idiv] at hrun
      subst hrun
      simp at hm
      exact hm.symm
    | .main _ :: .main _ :: .worker i :: _ =>
      simp [run, step, init, stepMain, stepWorker] at hrun
    | .main _ :: .main _ :: .main _ :: _ =>
      simp [run, step, init, stepMain] at hrun

/-- C2, amended, at the schedule in which the aggregator's `select` choice is `errors`. -/
theorem C2_empty_always_panics_witness :
    tempAndHumidity binary64 [] "Paris" [.main .errors, .main .errors]
        = some (.panicked .divideByZero) ∧
      (Outcome.panicked .divideByZero : Outcome F64) = .panicked .divideByZero :=
  ⟨by decide,
   (C2_empty_always_panics binary64 "Paris").2 [.main .errors, .main .errors] _ (by decide)⟩

/-- C9: the worker of the failing provider of `oneFails` sends two messages: after its three
steps the channel `errors` holds its error and the channel `data` holds the reading `(0, 0)`. -/
theorem C9_failing_worker_sends_twice :
    (run binary64 oneFails "London" (init oneFails) failingWorkerEnds).map
        (fun s => (s.workers[0]?, s.errors, s.errorsSent, s.data, s.dataSent))
      = some (some .done, [.other "connection refused"], 1, [⟨F64.fin false 0 0, 0⟩], 1) := by
  rfl


/-- C10: in every state reached by a call, under every schedule and whatever the providers
do, the number of messages ever sent on `data` and the number ever sent on `errors` are at
most `len(mw)`, the capacity of the channel, and a worker that is at a send statement can
take that step. -/
theorem C10_channels_never_full {F : Type} (ops : Float64Ops F)
    (mw : multiWeatherProvider F) (city : String) (sched : List Action) (s : State F)
    (hrun : run ops mw city (init mw) sched = some s) :
    s.dataSent ≤ mw.length ∧ s.errorsSent ≤ mw.length ∧
    s.data.length ≤ mw.length ∧ s.errors.length ≤ mw.length ∧
    (∀ (i : Nat) (k : F) (h : Int), s.workers[i]? = some (.sendData k h) →
      (stepWorker mw city s i).isSome) ∧
    (∀ (i : Nat) (k : F) (h : Int) (err : GoError), s.workers[i]? = some (.sendErr k h err) →
      (stepWorker mw city s i).isSome) := by
  have hinv := run_inv ops mw city sched (init mw) s (init_inv mw) hrun
  have h1 : s.workers.countP Worker.isDone ≤ s.workers.length := List.countP_le_length _
  have h2 : s.workers.countP Worker.pastErr ≤ s.workers.length := List.countP_le_length _
  have h3 := hinv.len
  have h4 := hinv.sentData
  have h5 := hinv.sentErr
  have h6 := hinv.recv
  have h7 := hinv.errs
  refine ⟨by omega, by omega, by omega, by omega, ?_, ?_⟩
  · intro i k h hw
    have h8 := countP_set_eq Worker.isDone s.workers i _ .done hw
    have h9 : (s.workers.set i .done).countP Worker.isDone ≤ (s.workers.set i .done).length :=
      List.countP_le_length _
    simp only [Worker.isDone, Bool.false_eq_true, if_false, if_true, Nat.add_zero,
      List.length_set] at h8 h9
    have hfree : s.data.length < mw.length := by omega
    simp [stepWorker, hw, hfree]
  · intro i k h err hw
    have h8 := countP_set_eq Worker.pastErr s.workers i _ .done hw
    have h9 : (s.workers.set i .done).countP Worker.pastErr ≤ (s.workers.set i .done).length :=
      List.countP_le_length _
    simp only [Worker.pastErr, Bool.false_eq_true, if_false, if_true, Nat.add_zero,
      List.length_set] at h8 h9
    have hfree : s.errors.length < mw.length := by omega
    simp [stepWorker, hw, hfree]

/-- C10, at the state of the call on `oneFails` in which one error has been sent and both
workers are about to send on `data`. -/
theorem C10_channels_never_full_witness :
    run binary64 oneFails "London" (init oneFails) (failingWorkerStarts ++ [.worker 1])
        = some bothAboutToSend ∧
      bothAboutToSend.dataSent ≤ oneFails.length ∧
      bothAboutToSend.errorsSent ≤ oneFails.length ∧
      bothAboutToSend.data.length ≤ oneFails.length ∧
      bothAboutToSend.errors.length ≤ oneFails.length ∧
      (∀ (i : Nat) (k : F64) (h : Int), bothAboutToSend.workers[i]? = some (.sendData k h) →
        (stepWorker oneFails "London" bothAboutToSend i).isSome) ∧
      (∀ (i : Nat) (k : F64) (h : Int) (err : GoError),
        bothAboutToSend.workers[i]? = some (.sendErr k h err) →
        (stepWorker oneFails "London" bothAboutToSend i).isSome) :=
  ⟨by decide,
   C10_channels_never_full binary64 oneFails "London" (failingWorkerStarts ++ [.worker 1])
     bothAboutToSend (by decide)⟩

/-- Two lists that are permutations of each other and have two elements are equal or
swapped. -/
theorem perm_pair_cases {α : Type} (a b x y : α) (h : [x, y].Perm [a, b]) :
    (x = a ∧ y = b) ∨ (x = b ∧ y = a) := by
  have hx : x ∈ [a, b] := h.subset (List.mem_cons_self x [y])
  simp only [List.mem_cons, List.mem_singleton, List.not_mem_nil, or_false] at hx
  rcases hx with hx | hx
  · subst hx
    have h1 : [y].Perm [b] := (List.perm_cons x).mp h
    exact Or.inl ⟨rfl, (List.cons.inj (List.perm_singleton.mp h1)).1⟩
  · subst hx
    have h1 : [x, y].Perm [x, a] := h.trans (List.Perm.swap x a [])
    have h2 : [y].Perm [a] := (List.perm_cons x).mp h1
    exact Or.inr ⟨rfl, (List.cons.inj (List.perm_singleton.mp h2)).1⟩

/-- The readings received by the end of a schedule, for a schedule that can be followed. -/
theorem received_of_run {F : Type} (ops : Float64Ops F) (mw : multiWeatherProvider F)
    (city : String) (sched : List Action) (s : State F)
    (hrun : run ops mw city (init mw) sched = some s) :
    (run ops mw city (init mw) sched).map State.received = some s.received := by
  rw [hrun]
  rfl

/-- C3 fails: the three providers of `threeReadings` succeed with 270.0, 270.7 and 271.1
kelvin, for which `((270.0 + 270.7 + 271.1) / 3) * 1.8 - 459.67` is 27.410000000000025 in
`float64`, but when the readings are received in the order 270.7, 271.1, 270.0 the call
returns 27.40999999999991; and the two providers of `wrapReadings` succeed with humidities
`2^63 - 1` and `1`, whose sum divided by 2 is `2^62`, but the call returns `-2^62`. -/
theorem C3_list_order_formula_fails :
    three.map (fun p => p "London") = threeReadings.map succeeds ∧
    binary64.sub (binary64.mul (binary64.div (sumTemp binary64 threeReadings)
        (binary64.ofInt 3)) binary64.c1_8) binary64.c459_67
      = F64.fin false 7715229111639088 (-48) ∧
    tempAndHumidity binary64 three "London" (completionOrder [1, 2, 0])
      = some (.returned (F64.fin false 7715229111639056 (-48)) 50 none) ∧
    wrapTwo.map (fun p => p "London") = wrapReadings.map succeeds ∧
    Int.tdiv (wrapReadings.map weatherTuple.humidity).sum 2 = 2 ^ 62 ∧
    tempAndHumidity binary64 wrapTwo "London" (completionOrder [0, 1])
      = some (.returned (F64.fin false 7505530253989640 (-47)) (-2 ^ 62) none) := by
  decide

/-- C3, amended: on a non-empty provider list whose providers all succeed, with readings
`rs`, every call that ends returns a nil error, the temperature
`(s / float64(N)) * 1.8 - 459.67` where `s` is the `float64` sum `0.0 + k + ...` of the
temperatures in the order `rcv` in which that call received the readings (a permutation of
`rs`), and the humidity `(h_1 + ... + h_N) / N` with the sum taken in 64-bit `int`
arithmetic and the division truncating, which is the truncated quotient of the exact sum
when that sum fits 64 bits; every schedule the call can follow has at most `5 N + 2` steps
and can be continued to the end of the call. -/
theorem C3_average_in_order_received {F : Type} (ops : Float64Ops F)
    (mw : multiWeatherProvider F) (city : String) (rs : List (weatherTuple F)) (hne : mw ≠ [])
    (hok : mw.map (fun p => p city) = rs.map succeeds) :
    (∀ sched out, tempAndHumidity ops mw city sched = some out →
      ∃ rcv hum,
        (run ops mw city (init mw) sched).map State.received = some rcv ∧
        rcv.Perm rs ∧
        out = .returned
          (ops.sub (ops.mul (ops.div (sumTemp ops rcv) (ops.ofInt mw.length)) ops.c1_8)
            ops.c459_67) hum none ∧
        hum = Int.tdiv (wrap64 (rs.map weatherTuple.humidity).sum) mw.length ∧
        (-2 ^ 63 ≤ (rs.map weatherTuple.humidity).sum ∧
            (rs.map weatherTuple.humidity).sum < 2 ^ 63 →
          hum = Int.tdiv (rs.map weatherTuple.humidity).sum mw.length)) ∧
    (∀ sched s, run ops mw city (init mw) sched = some s →
      sched.length ≤ 5 * mw.length + 2 ∧
        ∃ more out, tempAndHumidity ops mw city (sched ++ more) = some out) := by
  constructor
  · intro sched out h
    rw [tempAndHumidity_eq_some] at h
    obtain ⟨s, hrun, hm⟩ := h
    obtain ⟨hperm, hout⟩ := result_all_succeed ops mw city rs hne hok sched s out hrun hm
    refine ⟨s.received, _, received_of_run ops mw city sched s hrun, hperm, hout, rfl, ?_⟩
    intro hr
    rw [wrap64_of_range _ hr.1 hr.2]
  · intro sched s hrun
    have h0 : Inv mw (init mw) ∧ InvOk ops mw rs (init mw) :=
      ⟨init_inv mw, init_invOk ops mw city rs hok⟩
    have hI := run_invOk ops mw city rs hok sched (init mw) s h0 hrun
    have hw := run_weight ops mw city rs hok sched (init mw) s h0.1 h0.2 hrun
    rw [weight_init] at hw
    refine ⟨by omega, ?_⟩
    obtain ⟨more, s1, out, hmore, hfin⟩ :=
      exists_finish ops mw city rs hok (weight mw.length s) s hI.1 hI.2 (Nat.le_refl _)
    refine ⟨more, out, ?_⟩
    rw [tempAndHumidity_eq_some]
    exact ⟨s1, run_append ops mw city sched more (init mw) s s1 hrun hmore, hfin⟩

/-- C3, amended, at the three providers of `threeReadings` when the readings are received in
the order 270.7, 271.1, 270.0: the call returns 27.40999999999991 degrees, computed from the
sum in that order, and humidity `(40 + 50 + 60) / 3 = 50`. -/
theorem C3_average_in_order_received_witness :
    three ≠ [] ∧ three.map (fun p => p "London") = threeReadings.map succeeds ∧
    ∃ rcv hum,
      (run binary64 three "London" (init three) (completionOrder [1, 2, 0])).map State.received
        = some rcv ∧
      rcv.Perm threeReadings ∧
      Outcome.returned (F64.fin false 7715229111639056 (-48)) 50 none
        = .returned
          (binary64.sub (binary64.mul (binary64.div (sumTemp binary64 rcv)
            (binary64.ofInt three.length)) binary64.c1_8) binary64.c459_67) hum none ∧
      hum = Int.tdiv (wrap64 (threeReadings.map weatherTuple.humidity).sum) three.length ∧
      (-2 ^ 63 ≤ (threeReadings.map weatherTuple.humidity).sum ∧
          (threeReadings.map weatherTuple.humidity).sum < 2 ^ 63 →
        hum = Int.tdiv (threeReadings.map weatherTuple.humidity).sum three.length) :=
  ⟨by simp [three, threeReadings], by decide,
   (C3_average_in_order_received binary64 three "London" threeReadings
     (by simp [three, threeReadings]) (by decide)).1
     (completionOrder [1, 2, 0]) _ (by decide)⟩

/-- C6 fails: three providers that all succeed with 250.05 kelvin and humidity 50 yield the
temperature -9.579999999999927, whereas `250.05 * 1.8 - 459.67` is -9.579999999999984 (the
`float64` average of three copies of 250.05 is 250.05000000000004); and two providers that
both succeed with humidity `2^62` yield the humidity `-2^62` (the `int` sum overflows). -/
theorem C6_identical_not_exact :
    (tempAndHumidity binary64 sameThree "London"
        (completionOrder [0, 1, 2])
      = some (.returned (F64.fin true 5393060553776128 (-49)) 50 none) ∧
    binary64.sub (binary64.mul t250_05 binary64.c1_8) binary64.c459_67
      = F64.fin true 5393060553776160 (-49)) ∧
    tempAndHumidity binary64 overflowTwo "London"
        (completionOrder [0, 1])
      = some (.returned (F64.fin false 6238892858791688 (-47)) (-2 ^ 62) none) := by
  decide

/-- C6, amended: when all `N >= 1` providers succeed with the same reading `(T, H)`, every
call that ends returns a nil error, the temperature `(s / float64(N)) * 1.8 - 459.67` where
`s` is the `float64` sum `0.0 + T + ... + T` of `N` copies of `T`, which is
`T * 1.8 - 459.67` whenever `s / float64(N)` is `T`, and the humidity `(N * H) / N` in Go
`int` arithmetic, which is `H` whenever `N * H` fits 64 bits; and every schedule the call can
follow can be continued to the end of the call. -/
theorem C6_identical_readings {F : Type} (ops : Float64Ops F) (mw : multiWeatherProvider F)
    (city : String) (T : F) (H : Int) (hne : mw ≠ [])
    (hok : ∀ p ∈ mw, p city = .returned T H none) :
    (∀ sched out, tempAndHumidity ops mw city sched = some out →
      ∃ t hum, out = .returned t hum none ∧
        t = ops.sub (ops.mul (ops.div (sumTemp ops (List.replicate mw.length ⟨T, H⟩))
              (ops.ofInt mw.length)) ops.c1_8) ops.c459_67 ∧
        (ops.div (sumTemp ops (List.replicate mw.length ⟨T, H⟩)) (ops.ofInt mw.length) = T →
          t = ops.sub (ops.mul T ops.c1_8) ops.c459_67) ∧
        hum = Int.tdiv (wrap64 (mw.length * H)) mw.length ∧
        (-2 ^ 63 ≤ mw.length * H ∧ mw.length * H < 2 ^ 63 → hum = H)) ∧
    (∀ sched s, run ops mw city (init mw) sched = some s →
      ∃ more out, tempAndHumidity ops mw city (sched ++ more) = some out) := by
  have hok1 : mw.map (fun p => p city)
      = (List.replicate mw.length (weatherTuple.mk T H)).map succeeds := by
    rw [List.map_replicate, List.eq_replicate_iff]
    refine ⟨by simp, ?_⟩
    intro b hb
    obtain ⟨p, hp, rfl⟩ := List.mem_map.mp hb
    exact hok p hp
  have hsum : ((List.replicate mw.length (weatherTuple.mk T H)).map weatherTuple.humidity).sum
      = mw.length * H := by
    simp [List.map_replicate, List.sum_replicate]
  have hpos : 0 < mw.length := List.length_pos.mpr hne
  constructor
  · intro sched out h
    rw [tempAndHumidity_eq_some] at h
    obtain ⟨s, hrun, hm⟩ := h
    obtain ⟨hperm, hout⟩ := result_all_succeed ops mw city _ hne hok1 sched s out hrun hm
    rw [List.perm_replicate.mp hperm, hsum] at hout
    refine ⟨_, _, hout, rfl, ?_, rfl, ?_⟩
    · intro havg
      rw [havg]
    · intro hr
      rw [wrap64_of_range _ hr.1 hr.2]
      exact Int.mul_tdiv_cancel_left H (by omega)
  · intro sched s hrun
    have h0 : Inv mw (init mw) ∧ InvOk ops mw _ (init mw) :=
      ⟨init_inv mw, init_invOk ops mw city _ hok1⟩
    have hI := run_invOk ops mw city _ hok1 sched (init mw) s h0 hrun
    obtain ⟨more, s1, out, hmore, hfin⟩ :=
      exists_finish ops mw city _ hok1 (weight mw.length s) s hI.1 hI.2 (Nat.le_refl _)
    refine ⟨more, out, ?_⟩
    rw [tempAndHumidity_eq_some]
    exact ⟨s1, run_append ops mw city sched more (init mw) s s1 hrun hmore, hfin⟩

/-- C6, amended, at two providers that both succeed with 280 kelvin and humidity 50: the
call returns 44.33 degrees, which is `280 * 1.8 - 459.67`, and humidity 50. -/
theorem C6_identical_readings_witness :
    sameTwo ≠ [] ∧
    (∀ p ∈ sameTwo,
      p "London" = .returned (F64.ofInt 280) 50 none) ∧
    ∃ t hum, Outcome.returned (F64.fin false 6238892858791688 (-47)) 50 none
        = .returned t hum none ∧
      t = binary64.sub (binary64.mul (binary64.div
            (sumTemp binary64 (List.replicate
              sameTwo.length ⟨F64.ofInt 280, 50⟩))
            (binary64.ofInt sameTwo.length))
          binary64.c1_8) binary64.c459_67 ∧
      (binary64.div
          (sumTemp binary64 (List.replicate
            sameTwo.length ⟨F64.ofInt 280, 50⟩))
          (binary64.ofInt sameTwo.length)
            = F64.ofInt 280 →
        t = binary64.sub (binary64.mul (F64.ofInt 280) binary64.c1_8) binary64.c459_67) ∧
      hum = Int.tdiv (wrap64 (sameTwo.length * 50))
          sameTwo.length ∧
      (-2 ^ 63 ≤ (sameTwo.length : Int) * 50 ∧
          (sameTwo.length : Int) * 50 < 2 ^ 63 →
        hum = 50) :=
  ⟨by simp [sameTwo],
   by simp [sameTwo, openWeather, openWeatherMap.tempAndHumidity, netOpenWeather],
   (C6_identical_readings binary64 sameTwo "London"
      (F64.ofInt 280) 50 (by simp [sameTwo])
      (by simp [sameTwo, openWeather, openWeatherMap.tempAndHumidity, netOpenWeather])).1
     (completionOrder [0, 1]) _ (by decide)⟩


/-- C7 fails: the three providers of `threeReadings` (270.0, 270.7 and 271.1 kelvin) yield
27.410000000000025 degrees when the readings are received in list order and
27.40999999999991 degrees when they are received in the reverse order. -/
theorem C7_order_changes_temperature :
    tempAndHumidity binary64 three "London" (completionOrder [0, 1, 2])
      = some (.returned (F64.fin false 7715229111639088 (-48)) 50 none) ∧
    (run binary64 three "London" (init three) (completionOrder [0, 1, 2])).map State.received
      = some threeReadings ∧
    tempAndHumidity binary64 three "London" (completionOrder [2, 1, 0])
      = some (.returned (F64.fin false 7715229111639056 (-48)) 50 none) ∧
    (run binary64 three "London" (init three) (completionOrder [2, 1, 0])).map State.received
      = some threeReadings.reverse := by
  decide

/-- C7, amended: for a non-empty provider list whose providers all succeed, two calls that
end have received the same readings up to order (`rcv1`, `rcv2`), return a nil error and the
same humidity, and each returns the temperature `(s / float64(N)) * 1.8 - 459.67` with `s`
the `float64` sum of the temperatures in the order that call received them; the two results
are equal whenever the two sums are equal, and they are equal for `N <= 2` whenever the
temperatures `k`, `k1` of the readings satisfy `0.0 + k = k` and `k + k1 = k1 + k`. -/
theorem C7_order_independence {F : Type} (ops : Float64Ops F) (mw : multiWeatherProvider F)
    (city : String) (rs : List (weatherTuple F)) (hne : mw ≠ [])
    (hok : mw.map (fun p => p city) = rs.map succeeds)
    (sched1 sched2 : List Action) (out1 out2 : Outcome F)
    (h1 : tempAndHumidity ops mw city sched1 = some out1)
    (h2 : tempAndHumidity ops mw city sched2 = some out2) :
    ∃ rcv1 rcv2 hum,
      (run ops mw city (init mw) sched1).map State.received = some rcv1 ∧
      (run ops mw city (init mw) sched2).map State.received = some rcv2 ∧
      rcv1.Perm rs ∧ rcv2.Perm rs ∧
      out1 = .returned
        (ops.sub (ops.mul (ops.div (sumTemp ops rcv1) (ops.ofInt mw.length)) ops.c1_8)
          ops.c459_67) hum none ∧
      out2 = .returned
        (ops.sub (ops.mul (ops.div (sumTemp ops rcv2) (ops.ofInt mw.length)) ops.c1_8)
          ops.c459_67) hum none ∧
      (sumTemp ops rcv1 = sumTemp ops rcv2 → out1 = out2) ∧
      (mw.length ≤ 2 →
        (∀ r ∈ rs, ops.add ops.zero r.temp = r.temp) →
        (∀ r ∈ rs, ∀ r1 ∈ rs, ops.add r.temp r1.temp = ops.add r1.temp r.temp) →
        out1 = out2) := by
  rw [tempAndHumidity_eq_some] at h1 h2
  obtain ⟨s1, hrun1, hm1⟩ := h1
  obtain ⟨s2, hrun2, hm2⟩ := h2
  obtain ⟨hperm1, hout1⟩ := result_all_succeed ops mw city rs hne hok sched1 s1 out1 hrun1 hm1
  obtain ⟨hperm2, hout2⟩ := result_all_succeed ops mw city rs hne hok sched2 s2 out2 hrun2 hm2
  have hsame : sumTemp ops s1.received = sumTemp ops s2.received → out1 = out2 := by
    intro hsum
    rw [hout1, hout2, hsum]
  refine ⟨s1.received, s2.received, _, received_of_run ops mw city sched1 s1 hrun1,
    received_of_run ops mw city sched2 s2 hrun2, hperm1, hperm2, hout1, hout2, hsame, ?_⟩
  intro hle hzero hcomm
  apply hsame
  have hlen := length_eq_of_ok mw city rs hok
  have hl1 := hperm1.length_eq
  have hl2 := hperm2.length_eq
  have hp : s1.received.Perm s2.received := hperm1.trans hperm2.symm
  match hr1 : s1.received, hr2 : s2.received with
  | [], l2 =>
    rw [hr1, hr2] at hp
    rw [hp.symm.eq_nil]
  | [a], l2 =>
    rw [hr1, hr2] at hp
    rw [List.perm_singleton.mp hp.symm]
  | [a, b], [] =>
    rw [hr1, hr2] at hp
    exact absurd hp.eq_nil (by simp)
  | [a, b], [x] =>
    rw [hr1, hr2] at hp
    have := hp.length_eq
    simp at this
  | [a, b], [x, y] =>
    rw [hr1, hr2] at hp
    have ha : a ∈ rs := hperm1.subset (by rw [hr1]; simp)
    have hb : b ∈ rs := hperm1.subset (by rw [hr1]; simp)
    rcases perm_pair_cases a b x y hp.symm with ⟨hx, hy⟩ | ⟨hx, hy⟩
    · rw [hx, hy]
    · rw [hx, hy]
      simp only [sumTemp, List.foldl_cons, List.foldl_nil]
      rw [hzero a ha, hzero b hb, hcomm a ha b hb]
  | [a, b], x :: y :: z :: l =>
    rw [hr1, hr2] at hp
    have := hp.length_eq
    simp at this
  | a :: b :: c :: l, l2 =>
    rw [hr1] at hl1
    simp only [List.length_cons] at hl1
    omega

/-- C7, amended, at the two providers of `twoReadings` completing in list order and in the
reverse order: both calls return 53.329999999999984 degrees and
humidity `(40 + 61) / 2 = 50`. -/
theorem C7_order_independence_witness :
    two ≠ [] ∧ two.map (fun p => p "London") = twoReadings.map succeeds ∧
    ∃ rcv1 rcv2 hum,
      (run binary64 two "London" (init two) (completionOrder [0, 1])).map State.received
        = some rcv1 ∧
      (run binary64 two "London" (init two) (completionOrder [1, 0])).map State.received
        = some rcv2 ∧
      rcv1.Perm twoReadings ∧ rcv2.Perm twoReadings ∧
      Outcome.returned (F64.fin false 7505530253989640 (-47)) 50 none
        = .returned
          (binary64.sub (binary64.mul (binary64.div (sumTemp binary64 rcv1)
            (binary64.ofInt two.length)) binary64.c1_8) binary64.c459_67) hum none ∧
      Outcome.returned (F64.fin false 7505530253989640 (-47)) 50 none
        = .returned
          (binary64.sub (binary64.mul (binary64.div (sumTemp binary64 rcv2)
            (binary64.ofInt two.length)) binary64.c1_8) binary64.c459_67) hum none ∧
      (sumTemp binary64 rcv1 = sumTemp binary64 rcv2 →
        Outcome.returned (F64.fin false 7505530253989640 (-47)) 50 none
          = Outcome.returned (F64.fin false 7505530253989640 (-47)) 50 none) ∧
      (two.length ≤ 2 →
        (∀ r ∈ twoReadings, binary64.add binary64.zero r.temp = r.temp) →
        (∀ r ∈ twoReadings, ∀ r1 ∈ twoReadings,
          binary64.add r.temp r1.temp = binary64.add r1.temp r.temp) →
        Outcome.returned (F64.fin false 7505530253989640 (-47)) 50 none
          = Outcome.returned (F64.fin false 7505530253989640 (-47)) 50 none) :=
  ⟨by simp [two, twoReadings], by decide,
   C7_order_independence binary64 two "London" twoReadings (by simp [two, twoReadings])
     (by decide) (completionOrder [0, 1]) (completionOrder [1, 0]) _ _ (by decide) (by decide)⟩

end WeatherServer
